import Mathlib

/-!
Verification development for the pyEDAA.Reports unit-testing report model.

This file gives a shallow embedding of the JUnit entity model and its
operations from `src/pyEDAA/Reports/Unittesting/JUnit.py` (the `Base`,
`Testcase`, `TestsuiteBase`, `Testsuite`, `TestsuiteSummary` and
`JUnitDocument` classes) and of the GoogleTest dialect mapper from
`src/pyEDAA/Reports/Unittesting/JUnit/GoogleTestJUnit.py`
(`Testsuite.FromTestsuite` / `Testsuite.ToTestsuite`).

Modelling conventions:
  * Python exceptions become `Except PyError`.  A Python `AttributeError`
    raised by reading an attribute that no slotted class defines is
    `PyError.attributeError` carrying the attribute name.
  * Python `Dict[str, T]` child maps are represented as `List T` in
    insertion order; `d[k] = v` with an existing key replaces the entry
    in place (Python dicts keep the original position), otherwise it
    appends.
  * Optional timestamps and durations (`datetime` / `timedelta` fields)
    are inert for every operation modelled here (they are only copied or
    serialised), so the embedded records omit them.
  * Messages of raised exceptions are kept without the interpolated
    f-string parts.
-/
/-- Exception kinds raised by the embedded code.  `DuplicateTestcaseException`
and `DuplicateTestsuiteException` are the JUnit-dialect subclasses declared in
JUnit.py lines 63-70; `attributeError` models Python's `AttributeError` for a
read of an attribute that the slotted classes never declare. -/
inductive PyError where
  | unittestException (msg : String)
  | duplicateTestcaseException (msg : String)
  | duplicateTestsuiteException (msg : String)
  | valueError (msg : String)
  | typeError (msg : String)
  | attributeError (attr : String)
  | assertionError
deriving DecidableEq

/-- Modelled from the spec: the testcase status enum of
`pyEDAA.Reports.Unittesting` (not under src/), §3: a terminal-state enum
`Unknown, Passed, Failed, Skipped, Errored, Weak`.  The Python type is a
`Flag`; the JUnit code only compares it for identity with these members and
checks `status & Mask is not Unknown`, which is true exactly for the nonzero
(non-`Unknown`) members, so a plain inductive is a faithful model. -/
inductive TestcaseStatus where
  | Unknown
  | Passed
  | Failed
  | Skipped
  | Errored
  | Weak
deriving DecidableEq

/-- Modelled from the spec: the derived suite status enum of
`pyEDAA.Reports.Unittesting` (not under src/), §3:
`Unknown, Passed, Failed, Skipped, Errored, Empty`. -/
inductive TestsuiteStatus where
  | Unknown
  | Passed
  | Failed
  | Skipped
  | Errored
  | Empty
deriving DecidableEq

/-- The 5-tuple `(tests, skipped, errored, failed, passed)` accumulated by
`Aggregate` (`TestsuiteAggregateReturnType`, JUnit.py line 81). -/
structure Counts where
  tests : Nat
  skipped : Nat
  errored : Nat
  failed : Nat
  passed : Nat
deriving DecidableEq

deriving instance DecidableEq for Except

/-- `Testcase` (JUnit.py lines 146-211).  `hasParent` models whether the
`_parent` back-reference is set (`None` vs. a testsuite); the durations are
omitted as inert.  `assertionCount` is `_assertionCount` from `Base`. -/
structure Testcase where
  name : String
  classname : String
  assertionCount : Option Nat
  status : TestcaseStatus
  hasParent : Bool
deriving DecidableEq

/-- `Testcase.Aggregate` (JUnit.py lines 188-205).  When the status is still
`Unknown`: a missing assertion count gives `Passed`, a zero assertion count
gives `Weak`; with a nonzero assertion count line 194 evaluates
`self._failedAssertionCount`, an attribute no class in the file declares
(the slotted classes declare only `_parent`, `_name`, `_duration`,
`_assertionCount`, `_dict`, `_classname`, `_status`), so the read raises
`AttributeError` and the `Passed`/`Failed` arms (and the `strict` folding on
lines 199-200) are unreachable.  A testcase whose status is already terminal
is returned unchanged. -/
def Testcase.Aggregate (strict : Bool) (tc : Testcase) : Except PyError Testcase :=
  if tc.status = TestcaseStatus.Unknown then
    match tc.assertionCount with
    | none => .ok { tc with status := TestcaseStatus.Passed }
    | some 0 => .ok { tc with status := TestcaseStatus.Weak }
    | some (_ + 1) => .error (.attributeError ("_failedAssertionCount"))
  else
    .ok tc

/-- `Testsuite` (JUnit.py lines 315-484).  The class declares slots
`_hostname` and `_testcases` only; in particular it has no `_testsuites`
child map (nested suites cannot be attached: the constructor also rejects a
`Testsuite` as `parent`).  The five counters and the derived status are the
`TestsuiteBase` fields. -/
structure Testsuite where
  name : String
  hostname : String
  testcases : List Testcase
  tests : Nat
  skipped : Nat
  errored : Nat
  failed : Nat
  passed : Nat
  status : TestsuiteStatus
  hasParent : Bool
deriving DecidableEq

/-- `TestsuiteSummary` (JUnit.py lines 488-578): the root node holding the
name-keyed `_testsuites` map and the `TestsuiteBase` counters. -/
structure TestsuiteSummary where
  name : String
  testsuites : List Testsuite
  tests : Nat
  skipped : Nat
  errored : Nat
  failed : Nat
  passed : Nat
  status : TestsuiteStatus
deriving DecidableEq

/-- The status chain shared verbatim by `Testsuite.Aggregate`
(JUnit.py lines 442-453) and `TestsuiteSummary.Aggregate` (lines 548-559).
Python's `tests - skipped` is integer subtraction, hence the `Int` cast. -/
def suiteStatusFromCounts (c : Counts) : TestsuiteStatus :=
  if c.errored > 0 then TestsuiteStatus.Errored
  else if c.failed > 0 then TestsuiteStatus.Failed
  else if c.tests = 0 then TestsuiteStatus.Empty
  else if (c.tests : Int) - (c.skipped : Int) = (c.passed : Int) then TestsuiteStatus.Passed
  else if c.tests = c.skipped then TestsuiteStatus.Skipped
  else TestsuiteStatus.Unknown

/-- The per-testcase counting step of `Testsuite.Aggregate`
(JUnit.py lines 418-434): `tests` is incremented, then exactly one bucket by
status.  `Unknown` raises (line 422); `Weak` falls through the four counted
branches into line 431, where `status & TestcaseStatus.Mask is not Unknown`
holds (the `Weak` flag bit is nonzero), so it raises the
"unsupported state" `UnittestException` (line 432). -/
def Testsuite.countTestcase (tc : Testcase) (c : Counts) : Except PyError Counts :=
  let c1 : Counts := { c with tests := c.tests + 1 }
  match tc.status with
  | TestcaseStatus.Unknown =>
      .error (.unittestException ("Found testcase with state Unknown."))
  | TestcaseStatus.Skipped => .ok { c1 with skipped := c1.skipped + 1 }
  | TestcaseStatus.Errored => .ok { c1 with errored := c1.errored + 1 }
  | TestcaseStatus.Passed => .ok { c1 with passed := c1.passed + 1 }
  | TestcaseStatus.Failed => .ok { c1 with failed := c1.failed + 1 }
  | TestcaseStatus.Weak =>
      .error (.unittestException ("Found testcase with unsupported state."))

/-- The `for testcase in self._testcases.values()` loop of
`Testsuite.Aggregate` (JUnit.py lines 415-434): each testcase is aggregated
in place, then counted.  The returned list holds the mutated testcases. -/
def Testsuite.aggregateTestcases (strict : Bool) :
    List Testcase → Counts → Except PyError (List Testcase × Counts)
  | [], c => .ok ([], c)
  | tc :: rest, c =>
    match Testcase.Aggregate strict tc with
    | .error e => .error e
    | .ok tc2 =>
      match Testsuite.countTestcase tc2 c with
      | .error e => .error e
      | .ok c2 =>
        match Testsuite.aggregateTestcases strict rest c2 with
        | .error e => .error e
        | .ok (rest2, c3) => .ok (tc2 :: rest2, c3)

/-- `Testsuite.Aggregate` (JUnit.py lines 412-455).  `super().Aggregate()`
is `TestsuiteBase.Aggregate` (lines 291-307), which returns the zero tuple:
its child-testsuite folding loop (lines 298-305) is commented out in the
source.  The suite then folds its direct testcases, stores the counters and
derives the status. -/
def Testsuite.Aggregate (strict : Bool) (ts : Testsuite) :
    Except PyError (Testsuite × Counts) :=
  match Testsuite.aggregateTestcases strict ts.testcases ⟨0, 0, 0, 0, 0⟩ with
  | .error e => .error e
  | .ok (tcs, c) =>
    .ok ({ ts with
             testcases := tcs
             tests := c.tests
             skipped := c.skipped
             errored := c.errored
             failed := c.failed
             passed := c.passed
             status := suiteStatusFromCounts c }, c)

/-- `TestsuiteSummary.Aggregate` (JUnit.py lines 539-561).
`super().Aggregate()` is `TestsuiteBase.Aggregate` (lines 291-307), which
returns `(0, 0, 0, 0, 0)` because the loop folding `self._testsuites`
(lines 298-305) is commented out; the summary never visits its child suites.
The zero counters are stored and the status chain yields `Empty`. -/
def TestsuiteSummary.Aggregate (s : TestsuiteSummary) : TestsuiteSummary × Counts :=
  let c : Counts := ⟨0, 0, 0, 0, 0⟩
  ({ s with
       tests := c.tests
       skipped := c.skipped
       errored := c.errored
       failed := c.failed
       passed := c.passed
       status := suiteStatusFromCounts c }, c)

/-- `Testsuite.AddTestcase` (JUnit.py lines 363-371): a testcase that is
already parented is rejected with `ValueError`; a name collision with an
existing child raises `DuplicateTestcaseException`; both checks happen before
the map is touched.  On success the testcase is parented and appended. -/
def Testsuite.AddTestcase (ts : Testsuite) (tc : Testcase) : Except PyError Testsuite :=
  if tc.hasParent then
    .error (.valueError ("Testcase is already part of a testsuite hierarchy."))
  else if ts.testcases.any (fun x => x.name == tc.name) then
    .error (.duplicateTestcaseException
      ("Testsuite already contains a testcase with same name."))
  else
    .ok { ts with testcases := ts.testcases ++ [{ tc with hasParent := true }] }

/-- The `testcases` iterable loop of `Testsuite.__init__`
(JUnit.py lines 340-349): the same two checks as `AddTestcase`, applied to
each element in order. -/
def Testsuite.initAddTestcases : List Testcase → Testsuite → Except PyError Testsuite
  | [], ts => .ok ts
  | tc :: rest, ts =>
    if tc.hasParent then
      .error (.valueError ("Testcase is already part of a testsuite hierarchy."))
    else if ts.testcases.any (fun x => x.name == tc.name) then
      .error (.duplicateTestcaseException
        ("Testsuite already contains a testcase with same name."))
    else
      Testsuite.initAddTestcases rest
        { ts with testcases := ts.testcases ++ [{ tc with hasParent := true }] }

/-- `Testsuite.__init__` without a `parent` argument
(JUnit.py lines 319-349): fresh counters, `Unknown` status, then the
`testcases` iterable is inserted with duplicate/re-parenting checks. -/
def Testsuite.init (name hostname : String) (testcases : List Testcase) :
    Except PyError Testsuite :=
  Testsuite.initAddTestcases testcases
    { name := name, hostname := hostname, testcases := [], tests := 0,
      skipped := 0, errored := 0, failed := 0, passed := 0,
      status := TestsuiteStatus.Unknown, hasParent := false }

/-- `TestsuiteSummary.AddTestsuite` (JUnit.py lines 525-533), the suite
counterpart of `AddTestcase` with `DuplicateTestsuiteException`. -/
def TestsuiteSummary.AddTestsuite (s : TestsuiteSummary) (ts : Testsuite) :
    Except PyError TestsuiteSummary :=
  if ts.hasParent then
    .error (.valueError ("Testsuite is already part of a testsuite hierarchy."))
  else if s.testsuites.any (fun x => x.name == ts.name) then
    .error (.duplicateTestsuiteException
      ("Testsuite already contains a testsuite with same name."))
  else
    .ok { s with testsuites := s.testsuites ++ [{ ts with hasParent := true }] }

/-- The `testsuites` iterable loop of `TestsuiteSummary.__init__`
(JUnit.py lines 502-511). -/
def TestsuiteSummary.initAddTestsuites :
    List Testsuite → TestsuiteSummary → Except PyError TestsuiteSummary
  | [], s => .ok s
  | ts :: rest, s =>
    if ts.hasParent then
      .error (.valueError ("Testsuite is already part of a testsuite hierarchy."))
    else if s.testsuites.any (fun x => x.name == ts.name) then
      .error (.duplicateTestsuiteException
        ("Testsuite already contains a testsuite with same name."))
    else
      TestsuiteSummary.initAddTestsuites rest
        { s with testsuites := s.testsuites ++ [{ ts with hasParent := true }] }

/-- `TestsuiteSummary.__init__` (JUnit.py lines 491-511). -/
def TestsuiteSummary.init (name : String) (testsuites : List Testsuite) :
    Except PyError TestsuiteSummary :=
  TestsuiteSummary.initAddTestsuites testsuites
    { name := name, testsuites := [], tests := 0, skipped := 0, errored := 0,
      failed := 0, passed := 0, status := TestsuiteStatus.Unknown }

/-- Python `d[k] = v` on the insertion-ordered `_testcases` dict: an existing
key keeps its position and its value is replaced, otherwise the pair is
appended. -/
def dictSetTestcase (tcs : List Testcase) (tc : Testcase) : List Testcase :=
  match tcs with
  | [] => [tc]
  | x :: rest => if x.name == tc.name then tc :: rest else x :: dictSetTestcase rest tc

/-- Python `d[k] = v` on the `_testsuites` dict of a summary. -/
def dictSetTestsuite (tss : List Testsuite) (ts : Testsuite) : List Testsuite :=
  match tss with
  | [] => [ts]
  | x :: rest => if x.name == ts.name then ts :: rest else x :: dictSetTestsuite rest ts

/-- `Testcase.__init__` with a `parent` testsuite (JUnit.py lines 150-169):
line 164 executes `parent._testcases[name] = self` with no duplicate-name and
no re-parenting check, and the new testcase's `_parent` is set.  The function
is total: no exception is raised on a name collision; the same-named sibling
is silently replaced. -/
def Testcase.initWithParent (name classname : String) (assertionCount : Option Nat)
    (status : TestcaseStatus) (parent : Testsuite) : Testsuite :=
  { parent with
      testcases := dictSetTestcase parent.testcases
        { name := name, classname := classname, assertionCount := assertionCount,
          status := status, hasParent := true } }

/-- `Testsuite.__init__` with a `parent` summary (JUnit.py lines 329-335):
line 333 executes `parent._testsuites[name] = self` with no checks. -/
def Testsuite.initWithParent (name hostname : String) (parent : TestsuiteSummary) :
    TestsuiteSummary :=
  { parent with
      testsuites := dictSetTestsuite parent.testsuites
        { name := name, hostname := hostname, testcases := [], tests := 0,
          skipped := 0, errored := 0, failed := 0, passed := 0,
          status := TestsuiteStatus.Unknown, hasParent := true } }

/-- Modelled from the spec: the `IterationScheme` flag set of
`pyEDAA.Reports.Unittesting` (not under src/), §4.3: independent flags
`IncludeSelf`, `IncludeTestsuites`, `IncludeTestcases`, `PreOrder`,
`PostOrder`.  A Python check `A | B in scheme` means that all flags of
`A | B` are contained in `scheme`, i.e. a conjunction of the fields here. -/
structure IterationScheme where
  includeSelf : Bool
  includeTestsuites : Bool
  includeTestcases : Bool
  preOrder : Bool
  postOrder : Bool
deriving DecidableEq

/-- The three node kinds an iteration can yield. -/
inductive JUnitNode where
  | testsuite (ts : Testsuite)
  | testcase (tc : Testcase)
  | summary (s : TestsuiteSummary)
deriving DecidableEq

/-- `Testsuite.Iterate` (JUnit.py lines 457-477) under full consumption of
the generator: the yielded items in order, plus the exception that ends the
iteration, if any.  Line 458 asserts that not both orders are requested.
The pre-order block (lines 460-466) yields the suite itself (if
`IncludeSelf | IncludeTestsuites` is contained in the scheme) and the direct
testcases (if `IncludeTestcases` is).  Line 468 then iterates
`self._testsuites` — an attribute `Testsuite` never declares (its slots are
`_hostname` and `_testcases` only) — so every iteration reaching that point
raises `AttributeError`; the recursion into child suites and the post-order
block (lines 471-477) are unreachable. -/
def Testsuite.Iterate (scheme : IterationScheme) (ts : Testsuite) :
    List JUnitNode × Option PyError :=
  if scheme.preOrder && scheme.postOrder then
    ([], some PyError.assertionError)
  else
    let pre :=
      (if scheme.preOrder then
        (if scheme.includeSelf && scheme.includeTestsuites
          then [JUnitNode.testsuite ts] else []) ++
        (if scheme.includeTestcases then ts.testcases.map JUnitNode.testcase else [])
      else [])
    (pre, some (PyError.attributeError ("_testsuites")))

/-- `TestsuiteSummary.Iterate` (JUnit.py lines 563-571) under full
consumption: the summary yields itself when
`IncludeSelf | IncludeTestsuites | PreOrder` is contained in the scheme, then
line 568 calls `testsuite.IterateTestsuites(...)` on the first child suite —
a method `Testsuite` does not define (it is commented out at lines 377-378)
— raising `AttributeError`.  Only a summary without child suites completes
(yielding itself again for the post-order flag combination). -/
def TestsuiteSummary.Iterate (scheme : IterationScheme) (s : TestsuiteSummary) :
    List JUnitNode × Option PyError :=
  let pre :=
    if scheme.includeSelf && scheme.includeTestsuites && scheme.preOrder
      then [JUnitNode.summary s] else []
  match s.testsuites with
  | [] =>
    let post :=
      if scheme.includeSelf && scheme.includeTestsuites && scheme.postOrder
        then [JUnitNode.summary s] else []
    (pre ++ post, none)
  | _ :: _ => (pre, some (PyError.attributeError ("IterateTestsuites")))

/-- A serialisable XML element: tag, attributes in emission order,
children. -/
inductive XmlElement where
  | mk (tag : String) (attributes : List (String × String)) (children : List XmlElement)

/-- `JUnitDocument._GenerateTestcase` (JUnit.py lines 805-822): name and
classname attributes, the optional assertion count, and the status-implying
child element (`Passed` emits none, any status other than
`Passed`/`Failed`/`Skipped` emits `error`).  The optional duration attribute
is omitted here together with the duration fields. -/
def generateTestcaseElement (tc : Testcase) : XmlElement :=
  let attrs :=
    [("name", tc.name), ("classname", tc.classname)] ++
      (match tc.assertionCount with
       | none => []
       | some n => [("assertions", Nat.repr n)])
  let children : List XmlElement :=
    match tc.status with
    | TestcaseStatus.Passed => []
    | TestcaseStatus.Failed => [XmlElement.mk ("failure") [] []]
    | TestcaseStatus.Skipped => [XmlElement.mk ("skipped") [] []]
    | _ => [XmlElement.mk ("error") [] []]
  XmlElement.mk ("testcase") attrs children

/-- `JUnitDocument._GenerateTestsuite` (JUnit.py lines 786-803): the stored
counters are serialised unconditionally, then the testcase children. -/
def generateTestsuiteElement (ts : Testsuite) : XmlElement :=
  XmlElement.mk ("testsuite")
    [("name", ts.name), ("tests", Nat.repr ts.tests),
     ("failures", Nat.repr ts.failed), ("errors", Nat.repr ts.errored),
     ("skipped", Nat.repr ts.skipped), ("hostname", ts.hostname)]
    (ts.testcases.map generateTestcaseElement)

/-- The XML tree built by `JUnitDocument.Generate` (JUnit.py lines 768-784)
from the summary's fields. -/
def generateDocumentTree (s : TestsuiteSummary) : XmlElement :=
  XmlElement.mk ("testsuites")
    [("name", s.name), ("tests", Nat.repr s.tests),
     ("failures", Nat.repr s.failed), ("errors", Nat.repr s.errored),
     ("skipped", Nat.repr s.skipped)]
    (s.testsuites.map generateTestsuiteElement)

/-- `JUnitDocument` (JUnit.py lines 582-614): the summary state plus the
internal `_xmlDocument` element tree (`None` until `Read` or `Generate`
populates it). -/
structure JUnitDocument where
  summary : TestsuiteSummary
  xmlDocument : Option XmlElement

/-- The three relevant outcomes of the filesystem/parser interaction of
`JUnitDocument.Read`: a missing file, an `XMLSyntaxError` from the
schema-validating parse, or a successfully parsed tree. -/
inductive ReadInput where
  | missingFile
  | xmlSyntaxError
  | valid (tree : XmlElement)

/-- `JUnitDocument.Read` (JUnit.py lines 616-641): a missing path raises a
wrapped `UnittestException`; an `XMLSyntaxError` is only printed
(lines 633-636) and leaves `_xmlDocument` unchanged while `Read` returns
normally; a successful parse stores the tree. -/
def JUnitDocument.Read (input : ReadInput) (doc : JUnitDocument) :
    Except PyError JUnitDocument :=
  match input with
  | ReadInput.missingFile =>
      .error (.unittestException ("JUnit XML file does not exist."))
  | ReadInput.xmlSyntaxError => .ok doc
  | ReadInput.valid tree => .ok { doc with xmlDocument := some tree }

/-- `JUnitDocument.Generate` (JUnit.py lines 764-784): if `_xmlDocument` is
already populated the call raises `UnittestException` — the `overwrite`
parameter is accepted but never consulted — otherwise the tree is built from
the summary and stored. -/
def JUnitDocument.Generate (overwrite : Bool) (doc : JUnitDocument) :
    Except PyError JUnitDocument :=
  if doc.xmlDocument.isSome then
    .error (.unittestException ("Internal XML document is populated with data."))
  else
    .ok { doc with xmlDocument := some (generateDocumentTree doc.summary) }

/-- `JUnitDocument.Write` (JUnit.py lines 643-660), with the filesystem
state abstracted to `pathExists`: an existing file without `overwrite`
raises; `regenerate` first calls `Generate(overwrite=True)` (line 652); an
empty `_xmlDocument` afterwards raises; otherwise the stored tree is the
written output. -/
def JUnitDocument.Write (pathExists overwrite regenerate : Bool)
    (doc : JUnitDocument) : Except PyError XmlElement :=
  if !overwrite && pathExists then
    .error (.unittestException ("JUnit XML file can not be written."))
  else
    match (if regenerate then JUnitDocument.Generate true doc else .ok doc) with
    | .error e => .error e
    | .ok doc2 =>
      match doc2.xmlDocument with
      | none =>
          .error (.unittestException
            ("Internal XML document tree is empty and needs to be generated before write is possible."))
      | some tree => .ok tree

/-!
### The GoogleTest dialect mapper

`src/pyEDAA/Reports/Unittesting/JUnit/GoogleTestJUnit.py` maps between the
canonical entity model of `pyEDAA.Reports.Unittesting` and the newer
`Testclass`-based JUnit data model of `pyEDAA.Reports.Unittesting.JUnit`.
Neither of those two modules is under src/ (src/ holds an older JUnit.py
without `Testclass`), so their types and the operations the mapper calls are
modelled from the spec below; the mapper's own functions
(`Testsuite.FromTestsuite`, lines 111-144, and `Testsuite.ToTestsuite`,
lines 146-170) are embedded from the source.

Python `str` values are embedded as `List Char` (`PyStr`) so that
`classname.split(".")` and the `f"{name}.{classname}"` joining become
`List.splitOn` and `List.intercalate` on characters.
-/

abbrev PyStr := List Char

/-- Modelled from the spec: `TestsuiteKind` of `pyEDAA.Reports.Unittesting`
(not under src/).  The spec names the `Logical` boundary and the `Package`,
`Module` and `Class` tags (§4.5); the mapper compares kinds only against
`Logical` with `>`. -/
inductive TestsuiteKind where
  | Root
  | Logical
  | Namespace
  | Package
  | Module
  | Class
deriving DecidableEq

/-- The order underlying `ts._kind > TestsuiteKind.Logical`
(GoogleTestJUnit.py line 133). -/
def TestsuiteKind.toNat : TestsuiteKind → Nat
  | TestsuiteKind.Root => 0
  | TestsuiteKind.Logical => 1
  | TestsuiteKind.Namespace => 2
  | TestsuiteKind.Package => 3
  | TestsuiteKind.Module => 4
  | TestsuiteKind.Class => 5

/-- `kind > TestsuiteKind.Logical`. -/
def TestsuiteKind.gtLogical (k : TestsuiteKind) : Bool :=
  TestsuiteKind.Logical.toNat < k.toNat

/-- Modelled from the spec: a canonical test case
(`pyEDAA.Reports.Unittesting.Testcase`, not under src/) reduced to the
fields the mapper moves: its name and status.  Durations, assertion counts
and annotations are copied verbatim by `FromTestcase`/`ToTestcase` and are
inert for the classname mapping, so they are represented by the `status`
payload alone. -/
structure UtTestcase where
  name : PyStr
  status : TestcaseStatus
deriving DecidableEq

/-- Modelled from the spec: a canonical test suite
(`pyEDAA.Reports.Unittesting.Testsuite`, not under src/), §3: a name-unique
mapping of child suites and of direct test cases, plus the suite kind. -/
inductive UtTestsuite where
  | mk (name : PyStr) (kind : TestsuiteKind) (testsuites : List UtTestsuite)
      (testcases : List UtTestcase)

def UtTestsuite.name : UtTestsuite → PyStr
  | .mk n _ _ _ => n

def UtTestsuite.kind : UtTestsuite → TestsuiteKind
  | .mk _ k _ _ => k

def UtTestsuite.testsuites : UtTestsuite → List UtTestsuite
  | .mk _ _ c _ => c

def UtTestsuite.testcases : UtTestsuite → List UtTestcase
  | .mk _ _ _ tc => tc

/-- Modelled from the spec: the JUnit data-model test case
(`pyEDAA.Reports.Unittesting.JUnit.Testcase` of the newer JUnit module, not
under src/), carrying the same payload. -/
structure JuTestcase where
  name : PyStr
  status : TestcaseStatus
deriving DecidableEq

/-- Modelled from the spec: `Testclass`
(`pyEDAA.Reports.Unittesting.JUnit.Testclass`, not under src/), §3: a
synthetic grouping node keyed by the dotted classname, holding a name-unique
mapping of test cases. -/
structure JuTestclass where
  name : PyStr
  testcases : List JuTestcase
deriving DecidableEq

/-- Modelled from the spec: the GoogleTest-dialect JUnit testsuite
(`Testsuite` of GoogleTestJUnit.py / the newer JUnit module), reduced to its
name and its `_testclasses` map; counters, times and status are only copied
by the mapper and are omitted as inert. -/
structure JuTestsuite where
  name : PyStr
  testclasses : List JuTestclass
deriving DecidableEq

/-- Modelled from the spec: `Testcase.FromTestcase` used at
GoogleTestJUnit.py line 142 copies a canonical case into a JUnit-model
case. -/
def JuTestcase.FromTestcase (tc : UtTestcase) : JuTestcase :=
  ⟨tc.name, tc.status⟩

/-- Modelled from the spec: `tc.ToTestcase()` used at GoogleTestJUnit.py
line 168 copies a JUnit-model case back into a canonical case. -/
def JuTestcase.ToTestcase (tc : JuTestcase) : UtTestcase :=
  ⟨tc.name, tc.status⟩

/-! The dotted classnames assigned by `Testsuite.FromTestsuite`
(GoogleTestJUnit.py lines 126-135), computed top-down.  The source iterates
`testsuite.IterateTestcases()` (the canonical pre-order iteration of §4.3:
a suite's direct cases first, then each child suite recursively) and, for
each case, climbs from the case's suite upwards, prepending ancestor names
joined with `"."` while the ancestor's kind is `> Logical` and a parent
exists.  Here `above` is that maximal chain of `> Logical` ancestors of the
current suite, outermost first (empty at the root, whose parent is `None`),
so a case directly inside suite `t` gets the classname
`intercalate "." (above ++ [t.name])`, and the chain passed to the children
extends by `t` exactly when `t.kind > Logical`. -/
mutual

/-- The per-suite part of the classname computation; see the comment right
above this `mutual` block. -/
def UtTestsuite.casePairs (above : List PyStr) : UtTestsuite → List (PyStr × UtTestcase)
  | .mk n k kids cas =>
    cas.map (fun tc => (List.intercalate ([('.')]) (above ++ [n]), tc)) ++
      UtTestsuite.casePairsList
        (if TestsuiteKind.gtLogical k then above ++ [n] else []) kids

/-- The child-suite part of `UtTestsuite.casePairs`. -/
def UtTestsuite.casePairsList (above : List PyStr) :
    List UtTestsuite → List (PyStr × UtTestcase)
  | [] => []
  | c :: rest => UtTestsuite.casePairs above c ++ UtTestsuite.casePairsList above rest

end

/-- Modelled from the spec: `Testclass.AddTestcase` (newer JUnit module, not
under src/): sibling case names are unique within a testclass, a duplicate
raises the case-duplicate error (§3, §4.1). -/
def JuTestclass.AddTestcase (cls : JuTestclass) (tc : JuTestcase) :
    Except PyError JuTestclass :=
  if cls.testcases.any (fun x => x.name == tc.name) then
    .error (.duplicateTestcaseException
      ("Testclass already contains a testcase with same name."))
  else
    .ok { cls with testcases := cls.testcases ++ [tc] }

/-- The per-case grouping step of `Testsuite.FromTestsuite`
(GoogleTestJUnit.py lines 137-142): an existing testclass of the same
classname receives the case via `AddTestcase`, otherwise
`Testclass(classname, parent=juTestsuite)` appends a new testclass holding
it. -/
def addToClasses : List JuTestclass → PyStr → JuTestcase → Except PyError (List JuTestclass)
  | [], cn, tc => .ok [⟨cn, [tc]⟩]
  | cls :: rest, cn, tc =>
    if cls.name == cn then
      match JuTestclass.AddTestcase cls tc with
      | .error e => .error e
      | .ok cls2 => .ok (cls2 :: rest)
    else
      match addToClasses rest cn tc with
      | .error e => .error e
      | .ok rest2 => .ok (cls :: rest2)

/-- The loop of `Testsuite.FromTestsuite` over all cases with their computed
classnames (GoogleTestJUnit.py lines 126-142). -/
def groupCases : List (PyStr × UtTestcase) → List JuTestclass → Except PyError (List JuTestclass)
  | [], acc => .ok acc
  | (cn, tc) :: rest, acc =>
    match addToClasses acc cn (JuTestcase.FromTestcase tc) with
    | .error e => .error e
    | .ok acc2 => groupCases rest acc2

/-- `Testsuite.FromTestsuite` (GoogleTestJUnit.py lines 111-144): the
flattening direction.  Counters, times and status are copied (omitted here
as inert); every canonical case of the subtree is grouped into a testclass
keyed by its computed dotted classname. -/
def JuTestsuite.FromTestsuite (x : UtTestsuite) : Except PyError JuTestsuite :=
  match groupCases (UtTestsuite.casePairs [] x) [] with
  | .error e => .error e
  | .ok classes => .ok ⟨x.name, classes⟩

/-- Modelled from the spec: the canonical `Testsuite.AddTestcase` (§4.1,
not under src/): a duplicate case name under the same suite raises the
case-duplicate error. -/
def UtTestsuite.AddTestcase (s : UtTestsuite) (tc : UtTestcase) :
    Except PyError UtTestsuite :=
  match s with
  | .mk n k kids cas =>
    if cas.any (fun x => x.name == tc.name) then
      .error (.duplicateTestcaseException
        ("Testsuite already contains a testcase with same name."))
    else
      .ok (.mk n k kids (cas ++ [tc]))

/-- `suite.AddTestcases(...)` (GoogleTestJUnit.py line 168): each case in
turn. -/
def UtTestsuite.AddTestcases : UtTestsuite → List UtTestcase → Except PyError UtTestsuite
  | s, [] => .ok s
  | s, tc :: rest =>
    match UtTestsuite.AddTestcase s tc with
    | .error e => .error e
    | .ok s2 => UtTestsuite.AddTestcases s2 rest

/-- `ut_Testsuite(element, kind=TestsuiteKind.Package, parent=suite)`
(GoogleTestJUnit.py line 162): a fresh intermediate suite. -/
def mkPackageSuite (n : PyStr) : UtTestsuite :=
  .mk n TestsuiteKind.Package [] []

/-- Replace the kind of a suite node (`suite._kind = ...`). -/
def UtTestsuite.withKind (k : TestsuiteKind) : UtTestsuite → UtTestsuite
  | .mk n _ kids cas => .mk n k kids cas

/-- The innermost step of the `for element in classpath` walk of
`Testsuite.ToTestsuite` (GoogleTestJUnit.py lines 158-168) on the child list
of the innermost suite's parent: look the leaf suite up by name (or create
it as a `Package` suite), set its kind to `Class` and add the testclass's
cases with the duplicate check. -/
def insertLeaf (leaf : PyStr) (tcs : List UtTestcase) :
    List UtTestsuite → Except PyError (List UtTestsuite)
  | [] =>
    match UtTestsuite.AddTestcases ((mkPackageSuite leaf).withKind TestsuiteKind.Class) tcs with
    | .error e => .error e
    | .ok c => .ok [c]
  | c :: rest =>
    if c.name == leaf then
      match UtTestsuite.AddTestcases (c.withKind TestsuiteKind.Class) tcs with
      | .error e => .error e
      | .ok c2 => .ok (c2 :: rest)
    else
      match insertLeaf leaf tcs rest with
      | .error e => .error e
      | .ok rest2 => .ok (c :: rest2)

/-- `element in suite._testsuites` followed by
`suite._testsuites[element]` (GoogleTestJUnit.py lines 159-160): the first
child suite with the given name, if any. -/
def lookupChild (e : PyStr) : List UtTestsuite → Option UtTestsuite
  | [] => none
  | c :: rest => if c.name == e then some c else lookupChild e rest

/-- Writing the walked/created child suite back into the child map: an
existing key keeps its position, a fresh suite is appended (Python dict
semantics of `parent._testsuites[name] = self`). -/
def replaceChild (e : PyStr) (c2 : UtTestsuite) : List UtTestsuite → List UtTestsuite
  | [] => [c2]
  | c :: rest => if c.name == e then c2 :: rest else c :: replaceChild e c2 rest

/-- One testclass insertion of `Testsuite.ToTestsuite`
(GoogleTestJUnit.py lines 155-168) into the node `t`, with `path` the not
yet consumed part of `classpath = testclass._name.split(".")` and `isRoot`
recording whether `t` is the root testsuite object itself.  With a single
remaining element the walk is at the innermost suite's parent: the leaf
suite is created/retagged `Class` and filled, and — lines 165-166:
`if suite._parent is not testsuite: suite._parent._kind = Module` — the
parent `t` is retagged `Module` exactly when it is not the root.  In the
intermediate case the walk continues into the existing child suite named
`e` (or a fresh `Package` suite, line 162) and the updated child is written
back into the map; the Python original mutates that child in place, which is
the same tree on success (on a duplicate-case error Python keeps the suites
created so far while this embedding discards the whole insertion — only
successful insertions are compared in the theorems below).  `split` never
yields an empty list, so the `[]` case is unreachable from `ToTestsuite`; it
is mapped to the `AttributeError` Python would raise on `None._kind` for an
empty walk. -/
def insertTestclass (isRoot : Bool) (t : UtTestsuite) (path : List PyStr)
    (tcs : List UtTestcase) : Except PyError UtTestsuite :=
  match path with
  | [] => .error (.attributeError ("_kind"))
  | [leaf] =>
    match t with
    | .mk n k kids cas =>
      match insertLeaf leaf tcs kids with
      | .error e => .error e
      | .ok kids2 => .ok (.mk n (if isRoot then k else TestsuiteKind.Module) kids2 cas)
  | e :: r :: rest =>
    match t with
    | .mk n k kids cas =>
      let target :=
        match lookupChild e kids with
        | some c => c
        | none => mkPackageSuite e
      match insertTestclass false target (r :: rest) tcs with
      | .error e2 => .error e2
      | .ok c2 => .ok (.mk n k (replaceChild e c2 kids) cas)

/-- The loop of `Testsuite.ToTestsuite` over all testclasses
(GoogleTestJUnit.py lines 155-168). -/
def toTestsuiteLoop : UtTestsuite → List JuTestclass → Except PyError UtTestsuite
  | t, [] => .ok t
  | t, cls :: rest =>
    match insertTestclass true t (cls.name.splitOn ('.'))
        (cls.testcases.map JuTestcase.ToTestcase) with
    | .error e => .error e
    | .ok t2 => toTestsuiteLoop t2 rest

/-- `Testsuite.ToTestsuite` (GoogleTestJUnit.py lines 146-170): the
unflattening direction.  The root canonical suite is created with kind
`Logical` (line 149); every testclass's dotted name is split on `"."` and
walked/created as a suite path; its cases are converted back and added. -/
def JuTestsuite.ToTestsuite (ju : JuTestsuite) : Except PyError UtTestsuite :=
  toTestsuiteLoop (.mk ju.name TestsuiteKind.Logical [] []) ju.testclasses

/-- The case/classname pairs represented by a list of testclasses, with the
cases converted back to canonical cases. -/
def juClassPairs (cls : List JuTestclass) : List (PyStr × UtTestcase) :=
  cls.flatMap (fun c => c.testcases.map (fun tc => (c.name, JuTestcase.ToTestcase tc)))

mutual

/-- All suites strictly below the given node have kind `> Logical`
(`Package`, `Module` or `Class` in a tree built by `ToTestsuite`). -/
def UtTestsuite.subOK : UtTestsuite → Bool
  | .mk _ _ kids _ => UtTestsuite.subOKList kids

/-- The child-list part of `UtTestsuite.subOK`. -/
def UtTestsuite.subOKList : List UtTestsuite → Bool
  | [] => true
  | c :: rest => c.kind.gtLogical && c.subOK && UtTestsuite.subOKList rest

end

/-!
### Concrete inputs used by the evaluation theorems and witnesses
-/

/-- String-to-`PyStr` shorthand. -/
def pys (s : String) : PyStr := s.toList

/-- `Testsuite.TestcaseCount` (JUnit.py lines 359-361): the number of direct
testcases. -/
def Testsuite.TestcaseCount (ts : Testsuite) : Nat := ts.testcases.length

/-- `TestsuiteSummary.TestcaseCount` (JUnit.py lines 517-519): the sum over
the child suites. -/
def TestsuiteSummary.TestcaseCount (s : TestsuiteSummary) : Nat :=
  (s.testsuites.map Testsuite.TestcaseCount).sum

/-- A testcase already marked `Passed` (as the parser leaves a testcase with
no `failure`/`error`/`skipped` child, JUnit.py lines 761-762). -/
def exPassedCase : Testcase :=
  { name := "case1", classname := "cls", assertionCount := none,
    status := TestcaseStatus.Passed, hasParent := true }

/-- A testsuite holding one passed testcase. -/
def exSuiteOnePassed : Testsuite :=
  { name := "T", hostname := "h", testcases := [exPassedCase], tests := 0,
    skipped := 0, errored := 0, failed := 0, passed := 0,
    status := TestsuiteStatus.Unknown, hasParent := true }

/-- A summary holding one testsuite with one passed testcase: one testcase
in the whole subtree. -/
def exSummaryOnePassed : TestsuiteSummary :=
  { name := "S", testsuites := [exSuiteOnePassed], tests := 0, skipped := 0,
    errored := 0, failed := 0, passed := 0, status := TestsuiteStatus.Unknown }

/-- A testcase that was skipped (parser sets `Skipped` from a `skipped`
child element, JUnit.py line 745). -/
def exSkippedCase : Testcase :=
  { name := "sk", classname := "cls", assertionCount := none,
    status := TestcaseStatus.Skipped, hasParent := true }

/-- A testsuite in which every testcase is skipped. -/
def exAllSkippedSuite : Testsuite :=
  { name := "T", hostname := "h", testcases := [exSkippedCase], tests := 0,
    skipped := 0, errored := 0, failed := 0, passed := 0,
    status := TestsuiteStatus.Unknown, hasParent := false }

/-- A testcase whose status is still `Unknown` and which recorded a nonzero
assertion count. -/
def exUnknownAssertedCase : Testcase :=
  { name := "u", classname := "cls", assertionCount := some 3,
    status := TestcaseStatus.Unknown, hasParent := false }

/-- A testcase that resolves to `Weak` (assertion count present and zero). -/
def exZeroAssertionCase : Testcase :=
  { name := "w", classname := "cls", assertionCount := some 0,
    status := TestcaseStatus.Unknown, hasParent := true }

/-- A testsuite holding the zero-assertion testcase. -/
def exWeakSuite : Testsuite :=
  { name := "T", hostname := "h", testcases := [exZeroAssertionCase],
    tests := 0, skipped := 0, errored := 0, failed := 0, passed := 0,
    status := TestsuiteStatus.Unknown, hasParent := false }

/-- A scheme with `IncludeSelf`, `IncludeTestsuites`, `IncludeTestcases` and
`PreOrder`. -/
def schemePreAll : IterationScheme :=
  { includeSelf := true, includeTestsuites := true, includeTestcases := true,
    preOrder := true, postOrder := false }

/-- A scheme requesting both `PreOrder` and `PostOrder`. -/
def schemeBothOrders : IterationScheme :=
  { includeSelf := true, includeTestsuites := true, includeTestcases := true,
    preOrder := true, postOrder := true }

/-- A testsuite that already contains a testcase named `a`. -/
def exSuiteWithA : Testsuite :=
  { name := "T", hostname := "h",
    testcases := [{ name := "a", classname := "c1", assertionCount := none,
                    status := TestcaseStatus.Passed, hasParent := true }],
    tests := 0, skipped := 0, errored := 0, failed := 0, passed := 0,
    status := TestsuiteStatus.Unknown, hasParent := false }

/-- An unparented testsuite named `U`. -/
def exFreeSuiteU1 : Testsuite :=
  { name := "U", hostname := "h1", testcases := [], tests := 0, skipped := 0,
    errored := 0, failed := 0, passed := 0, status := TestsuiteStatus.Unknown,
    hasParent := false }

/-- A second unparented testsuite with the same name `U`. -/
def exFreeSuiteU2 : Testsuite :=
  { name := "U", hostname := "h2", testcases := [], tests := 0, skipped := 0,
    errored := 0, failed := 0, passed := 0, status := TestsuiteStatus.Unknown,
    hasParent := false }

/-- The GoogleTest JUnit suite of C9's counterexample: two testclasses with
dotted names `a.b` and `c`. -/
def exGtJuSuite : JuTestsuite :=
  ⟨pys ("root"),
    [⟨pys ("a.b"), [⟨pys ("t1"), TestcaseStatus.Passed⟩]⟩,
     ⟨pys ("c"), [⟨pys ("t2"), TestcaseStatus.Passed⟩]⟩]⟩

/-- The canonical tree `ToTestsuite` reconstructs from `exGtJuSuite`. -/
def exGtUnflattened : UtTestsuite :=
  match JuTestsuite.ToTestsuite exGtJuSuite with
  | .ok y => y
  | .error _ => .mk [] TestsuiteKind.Root [] []

/-- The aggregated form of `exAllSkippedSuite`. -/
def exAllSkippedAggregated : Testsuite :=
  { exAllSkippedSuite with
      tests := 1
      skipped := 1
      status := TestsuiteStatus.Passed }

/-!
### Status precedence (C2)
-/

/-- The status precedence exactly as the spec's §4.2 lists it, evaluated in
order with first match winning — a second definition following the spec's
words, to be compared with the embedded chain `suiteStatusFromCounts`. -/
def suiteStatusSpecPrecedence (tests skipped errored failed passed : Nat) :
    TestsuiteStatus :=
  if errored > 0 then TestsuiteStatus.Errored
  else if failed > 0 then TestsuiteStatus.Failed
  else if tests = 0 then TestsuiteStatus.Empty
  else if (tests : Int) - (skipped : Int) = (passed : Int) then TestsuiteStatus.Passed
  else if tests = skipped then TestsuiteStatus.Skipped
  else TestsuiteStatus.Unknown

/-- A minimal parsed XML tree. -/
def exXmlTree : XmlElement := .mk ("testsuites") [] []

/-- An unread document. -/
def exDocUnread : JUnitDocument :=
  { summary := exSummaryOnePassed, xmlDocument := none }

/-- The document after a successful `Read`. -/
def exDocRead : JUnitDocument :=
  { summary := exSummaryOnePassed, xmlDocument := some exXmlTree }

/-!
### Kind tagging in `ToTestsuite` (C9)
-/

def findPath : UtTestsuite → List PyStr → Option UtTestsuite
  | t, [] => some t
  | t, e :: rest =>
    match lookupChild e t.testsuites with
    | some c => findPath c rest
    | none => none

/-- The classpath of C9's witness. -/
def exKindPath : List PyStr := [pys ("a"), pys ("b"), pys ("c")]

/-- The tree built by inserting the witness classpath into a bare root. -/
def exKindResult : UtTestsuite :=
  match insertTestclass true (.mk (pys ("r")) TestsuiteKind.Logical [] [])
      exKindPath [⟨pys ("t"), TestcaseStatus.Passed⟩] with
  | .ok y => y
  | .error _ => .mk [] TestsuiteKind.Root [] []

/-- The canonical tree of C6's witness: suites `pkg` (Package) > `Mod`
(Module) holding classes `ClassA` and `ClassB` under a `Logical` root. -/
def exRoundtripX : UtTestsuite :=
  .mk (pys ("top")) TestsuiteKind.Logical
    [.mk (pys ("pkg")) TestsuiteKind.Package
      [.mk (pys ("Mod")) TestsuiteKind.Module
        [.mk (pys ("ClassA")) TestsuiteKind.Class []
          [⟨pys ("t1"), TestcaseStatus.Passed⟩, ⟨pys ("t2"), TestcaseStatus.Failed⟩],
         .mk (pys ("ClassB")) TestsuiteKind.Class []
          [⟨pys ("t3"), TestcaseStatus.Passed⟩]] []] []] []

/-- The flattened form of the witness tree (classnames `pkg.Mod.ClassA` and
`pkg.Mod.ClassB`). -/
def exRoundtripJu : JuTestsuite :=
  match JuTestsuite.FromTestsuite exRoundtripX with
  | .ok ju => ju
  | .error _ => ⟨[], []⟩

/-- The unflattened reconstruction of the witness tree. -/
def exRoundtripY : UtTestsuite :=
  match JuTestsuite.ToTestsuite exRoundtripJu with
  | .ok y => y
  | .error _ => .mk [] TestsuiteKind.Root [] []

/-!
## Theorems
-/

/-- Sanity check for the embedding. -/
example :
    Testcase.Aggregate true
        { name := "t", classname := "c", assertionCount := none,
          status := TestcaseStatus.Unknown, hasParent := true } =
      .ok { name := "t", classname := "c", assertionCount := none,
            status := TestcaseStatus.Passed, hasParent := true } := by decide

/-- C1: the claim says `Aggregate` on a `TestsuiteSummary` recurses
depth-first into the child test suites and returns a tuple counting every
test case of the whole subtree.  The code does not: `TestsuiteBase.Aggregate`
(JUnit.py lines 291-307) has its child-suite folding loop commented out and
returns the zero tuple, so `TestsuiteSummary.Aggregate` (lines 539-561)
stores all-zero counters and status `Empty` on a summary whose subtree holds
one test case.  (`Testsuite` cannot even hold child suites: it declares no
`_testsuites` slot and its constructor rejects a `Testsuite` parent.) -/
theorem summary_aggregate_ignores_child_suites :
    TestsuiteSummary.TestcaseCount exSummaryOnePassed = 1 ∧
    TestsuiteSummary.Aggregate exSummaryOnePassed =
      ({ exSummaryOnePassed with status := TestsuiteStatus.Empty },
        ⟨0, 0, 0, 0, 0⟩) := by
  constructor
  · rfl
  · rfl

/-- C2 counterexample: the claim says a suite where every test is skipped
and `passed == 0` gets status `Skipped`.  On such a suite the counters are
`tests = skipped = 1`, `passed = 0`, so the fourth rule
`tests - skipped == passed` (i.e. `0 == 0`) already matches and the status
chain of `Testsuite.Aggregate` (JUnit.py lines 442-453) yields `Passed`; the
fifth rule is unreachable with `passed = 0`. -/
theorem all_skipped_suite_aggregates_to_passed :
    Testsuite.Aggregate true exAllSkippedSuite =
      .ok ({ exAllSkippedSuite with
               tests := 1
               skipped := 1
               status := TestsuiteStatus.Passed }, ⟨1, 1, 0, 0, 0⟩) ∧
    TestsuiteStatus.Passed ≠ TestsuiteStatus.Skipped := by
  constructor
  · rfl
  · decide

/-- C3: the claim says an `Unknown` testcase with a present, nonzero
assertion count and zero failed assertions resolves to `Passed`, and that
under `strict=true` a `Weak` case is counted as `Failed` by the enclosing
suite.  The code does neither: line 194 reads `self._failedAssertionCount`,
an attribute never declared by any of the slotted classes, so the
nonzero-assertion branch raises `AttributeError`; and a `Weak` testcase
makes `Testsuite.Aggregate` raise the "unsupported state"
`UnittestException` (JUnit.py lines 431-432) instead of counting it as
`Failed` (the `strict` folding on lines 199-200 sits inside the `Failed`
branch and never touches `Weak`). -/
theorem testcase_aggregate_crashes_on_assertions :
    Testcase.Aggregate true exUnknownAssertedCase =
      .error (.attributeError ("_failedAssertionCount")) ∧
    Testcase.Aggregate true exZeroAssertionCase =
      .ok { exZeroAssertionCase with status := TestcaseStatus.Weak } ∧
    Testsuite.Aggregate true exWeakSuite =
      .error (.unittestException ("Found testcase with unsupported state.")) := by
  refine ⟨rfl, rfl, rfl⟩

/-- C7: the claim describes pre/post-order interleaving with recursion into
child suites.  The code yields the pre-order part (the node itself, then its
direct testcases) and then always raises `AttributeError`: `Testsuite` has no
`_testsuites` attribute (JUnit.py line 468) and no `IterateTestsuites` method
(called by `TestsuiteSummary.Iterate` at line 568; it is commented out at
lines 377-378).  Only the both-orders rejection at entry behaves as claimed
(the `assert` at line 458). -/
theorem iterate_raises_attribute_error :
    Testsuite.Iterate schemePreAll exSuiteOnePassed =
      ([JUnitNode.testsuite exSuiteOnePassed, JUnitNode.testcase exPassedCase],
        some (PyError.attributeError ("_testsuites"))) ∧
    TestsuiteSummary.Iterate schemePreAll exSummaryOnePassed =
      ([JUnitNode.summary exSummaryOnePassed],
        some (PyError.attributeError ("IterateTestsuites"))) ∧
    Testsuite.Iterate schemeBothOrders exSuiteOnePassed =
      ([], some PyError.assertionError) := by
  refine ⟨rfl, rfl, rfl⟩

/-- C8 counterexample: the claim says every way of inserting a child —
including passing `parent=` to the child's constructor — fails with the
duplicate error when a same-named sibling exists, leaving the parent's map
unchanged.  `Testcase.__init__` (JUnit.py lines 160-164) performs no check:
constructing a second testcase named `a` with `parent=` succeeds and
silently replaces the existing sibling in the parent's map. -/
theorem constructor_parent_path_replaces_sibling :
    Testcase.initWithParent ("a") ("c2") none TestcaseStatus.Unknown exSuiteWithA =
      { exSuiteWithA with
          testcases := [{ name := "a", classname := "c2", assertionCount := none,
                          status := TestcaseStatus.Unknown, hasParent := true }] } ∧
    (Testcase.initWithParent ("a") ("c2") none TestcaseStatus.Unknown
        exSuiteWithA).testcases ≠ exSuiteWithA.testcases := by
  constructor
  · rfl
  · decide

/-- C9 counterexample: the claim says the innermost suite's parent is
retagged `Module` exactly when that parent is the root testsuite itself.
The code (GoogleTestJUnit.py lines 165-166) does the opposite:
`if suite._parent is not testsuite: suite._parent._kind = Module`.  For
testclass `a.b` the parent `a` of the innermost suite `b` is not the root,
yet it is retagged `Module` (the claim would leave it `Package`); for
testclass `c` the parent is the root, yet the root keeps its `Logical` kind
(the claim would retag it `Module`). -/
theorem totestsuite_retags_nonroot_parent_to_module :
    JuTestsuite.ToTestsuite exGtJuSuite = .ok exGtUnflattened ∧
    exGtUnflattened.kind = TestsuiteKind.Logical ∧
    exGtUnflattened.testsuites.map (fun c => (c.name, c.kind)) =
      [(pys ("a"), TestsuiteKind.Module), (pys ("c"), TestsuiteKind.Class)] ∧
    exGtUnflattened.testsuites.map (fun c => c.testsuites.map (fun d => (d.name, d.kind))) =
      [[(pys ("b"), TestsuiteKind.Class)], []] ∧
    TestsuiteKind.Module ≠ TestsuiteKind.Package ∧
    TestsuiteKind.Logical ≠ TestsuiteKind.Module := by
  refine ⟨rfl, rfl, by decide, by decide, by decide, by decide⟩

/-!
### Aggregation invariants (C4, C5)
-/

/-- One counting step keeps `tests = skipped + errored + failed + passed`:
it adds 1 to `tests` and 1 to exactly one of the four buckets. -/
theorem countTestcase_sum {tc : Testcase} {c c2 : Counts}
    (h : Testsuite.countTestcase tc c = .ok c2)
    (hc : c.tests = c.skipped + c.errored + c.failed + c.passed) :
    c2.tests = c2.skipped + c2.errored + c2.failed + c2.passed := by
  cases htc : tc.status <;> simp [Testsuite.countTestcase, htc] at h <;>
    (subst h; simp; omega)

/-- The testcase loop keeps the running tuple consistent. -/
theorem aggregateTestcases_sum (strict : Bool) :
    ∀ (tcs : List Testcase) (c : Counts) (tcs2 : List Testcase) (c2 : Counts),
      Testsuite.aggregateTestcases strict tcs c = .ok (tcs2, c2) →
      c.tests = c.skipped + c.errored + c.failed + c.passed →
      c2.tests = c2.skipped + c2.errored + c2.failed + c2.passed := by
  intro tcs
  induction tcs with
  | nil =>
    intro c tcs2 c2 h hc
    simp only [Testsuite.aggregateTestcases, Except.ok.injEq, Prod.mk.injEq] at h
    obtain ⟨h1, h2⟩ := h
    subst h2
    exact hc
  | cons tc rest ih =>
    intro c tcs2 c2 h hc
    unfold Testsuite.aggregateTestcases at h
    cases h1 : Testcase.Aggregate strict tc with
    | error e => rw [h1] at h; exact absurd h (by simp)
    | ok tc2 =>
      rw [h1] at h
      simp only [] at h
      cases h2 : Testsuite.countTestcase tc2 c with
      | error e => rw [h2] at h; exact absurd h (by simp)
      | ok cMid =>
        rw [h2] at h
        simp only [] at h
        cases h3 : Testsuite.aggregateTestcases strict rest cMid with
        | error e => rw [h3] at h; exact absurd h (by simp)
        | ok pr =>
          obtain ⟨rest2, c3⟩ := pr
          rw [h3] at h
          simp only [Except.ok.injEq, Prod.mk.injEq] at h
          obtain ⟨hl, hr⟩ := h
          subst hr
          exact ih cMid rest2 _ h3 (countTestcase_sum h2 hc)

/-- C4: for every testsuite and summary on which `Aggregate` completes
without raising, the stored counters satisfy
`tests = skipped + errored + failed + passed`.  For a testsuite the loop
starts from the zero tuple and each counted testcase adds 1 to `tests` and
to exactly one bucket; a summary stores the zero tuple. -/
theorem aggregate_counter_invariant :
    (∀ (strict : Bool) (ts ts2 : Testsuite) (c : Counts),
        Testsuite.Aggregate strict ts = .ok (ts2, c) →
        ts2.tests = ts2.skipped + ts2.errored + ts2.failed + ts2.passed) ∧
    (∀ s : TestsuiteSummary,
        (TestsuiteSummary.Aggregate s).1.tests =
          (TestsuiteSummary.Aggregate s).1.skipped +
            (TestsuiteSummary.Aggregate s).1.errored +
            (TestsuiteSummary.Aggregate s).1.failed +
            (TestsuiteSummary.Aggregate s).1.passed) := by
  constructor
  · intro strict ts ts2 c h
    unfold Testsuite.Aggregate at h
    cases h1 : Testsuite.aggregateTestcases strict ts.testcases ⟨0, 0, 0, 0, 0⟩ with
    | error e => rw [h1] at h; exact absurd h (by simp)
    | ok pr =>
      obtain ⟨tcs2, c2⟩ := pr
      rw [h1] at h
      simp only [Except.ok.injEq, Prod.mk.injEq] at h
      obtain ⟨hts, hc⟩ := h
      subst hc
      rw [← hts]
      simpa using aggregateTestcases_sum strict ts.testcases ⟨0, 0, 0, 0, 0⟩ tcs2 _ h1 (by simp)
  · intro s
    simp [TestsuiteSummary.Aggregate]

/-- Witness for `aggregate_counter_invariant` at a concrete suite. -/
theorem aggregate_counter_invariant_witness :
    exAllSkippedAggregated.tests =
      exAllSkippedAggregated.skipped + exAllSkippedAggregated.errored +
        exAllSkippedAggregated.failed + exAllSkippedAggregated.passed :=
  aggregate_counter_invariant.1 true exAllSkippedSuite exAllSkippedAggregated
    ⟨1, 1, 0, 0, 0⟩ (by rfl)

/-- A testcase that was successfully counted has a terminal status, so its
second `Aggregate` is the identity. -/
theorem countTestcase_ok_aggregate_fixed {tc : Testcase} {c c2 : Counts} (strict : Bool)
    (h : Testsuite.countTestcase tc c = .ok c2) :
    Testcase.Aggregate strict tc = .ok tc := by
  cases htc : tc.status <;> simp [Testsuite.countTestcase, htc] at h <;>
    simp [Testcase.Aggregate, htc]

/-- After a successful pass, re-running the testcase loop on the mutated
testcases from the same start tuple reproduces the same output. -/
theorem aggregateTestcases_idem (strict : Bool) :
    ∀ (tcs : List Testcase) (c : Counts) (tcs2 : List Testcase) (c2 : Counts),
      Testsuite.aggregateTestcases strict tcs c = .ok (tcs2, c2) →
      Testsuite.aggregateTestcases strict tcs2 c = .ok (tcs2, c2) := by
  intro tcs
  induction tcs with
  | nil =>
    intro c tcs2 c2 h
    simp only [Testsuite.aggregateTestcases, Except.ok.injEq, Prod.mk.injEq] at h
    obtain ⟨h1, h2⟩ := h
    subst h1
    subst h2
    rfl
  | cons tc rest ih =>
    intro c tcs2 c2 h
    unfold Testsuite.aggregateTestcases at h
    cases h1 : Testcase.Aggregate strict tc with
    | error e => rw [h1] at h; exact absurd h (by simp)
    | ok tc2 =>
      rw [h1] at h
      simp only [] at h
      cases h2 : Testsuite.countTestcase tc2 c with
      | error e => rw [h2] at h; exact absurd h (by simp)
      | ok cMid =>
        rw [h2] at h
        simp only [] at h
        cases h3 : Testsuite.aggregateTestcases strict rest cMid with
        | error e => rw [h3] at h; exact absurd h (by simp)
        | ok pr =>
          obtain ⟨rest2, c3⟩ := pr
          rw [h3] at h
          simp only [Except.ok.injEq, Prod.mk.injEq] at h
          obtain ⟨hl, hr⟩ := h
          subst hr
          rw [← hl]
          unfold Testsuite.aggregateTestcases
          simp only [countTestcase_ok_aggregate_fixed strict h2, h2,
            ih cMid rest2 _ h3]

/-- C5: `Aggregate` is idempotent.  A successful `Testsuite.Aggregate`
leaves every testcase with a terminal status and overwrites the counters, so
a second call returns the same tuple and the same node states; a
`TestsuiteSummary.Aggregate` always stores the zero tuple, so a second call
changes nothing. -/
theorem aggregate_idempotent :
    (∀ (strict : Bool) (ts ts2 : Testsuite) (c : Counts),
        Testsuite.Aggregate strict ts = .ok (ts2, c) →
        Testsuite.Aggregate strict ts2 = .ok (ts2, c)) ∧
    (∀ s : TestsuiteSummary,
        TestsuiteSummary.Aggregate (TestsuiteSummary.Aggregate s).1 =
          TestsuiteSummary.Aggregate s) := by
  constructor
  · intro strict ts ts2 c h
    unfold Testsuite.Aggregate at h
    cases h1 : Testsuite.aggregateTestcases strict ts.testcases ⟨0, 0, 0, 0, 0⟩ with
    | error e => rw [h1] at h; exact absurd h (by simp)
    | ok pr =>
      obtain ⟨tcs2, c2⟩ := pr
      rw [h1] at h
      simp only [Except.ok.injEq, Prod.mk.injEq] at h
      obtain ⟨hts, hc⟩ := h
      subst hc
      subst hts
      unfold Testsuite.Aggregate
      simp only [aggregateTestcases_idem strict ts.testcases ⟨0, 0, 0, 0, 0⟩ tcs2 _ h1]
  · intro s
    rfl

/-- Witness for `aggregate_idempotent` at a concrete suite. -/
theorem aggregate_idempotent_witness :
    Testsuite.Aggregate true exAllSkippedAggregated =
      .ok (exAllSkippedAggregated, ⟨1, 1, 0, 0, 0⟩) :=
  aggregate_idempotent.1 true exAllSkippedSuite exAllSkippedAggregated
    ⟨1, 1, 0, 0, 0⟩ (by rfl)

/-- The embedded chain and the spec's precedence list agree on every count
combination. -/
theorem suiteStatusFromCounts_eq_spec (c : Counts) :
    suiteStatusFromCounts c =
      suiteStatusSpecPrecedence c.tests c.skipped c.errored c.failed c.passed := rfl

/-- C2 (amended): the derived status of every suite/summary on which
`Aggregate` completes follows the spec's six-rule precedence on the
accumulated counters, and an empty suite gets `Empty`; but a suite in which
every test is skipped and `passed = 0` gets `Passed`, not `Skipped`: rule 4
(`tests - skipped == passed`, i.e. `0 == 0`) fires before rule 5, which is
reachable only with inconsistent counters (`tests = skipped` yet
`passed ≠ 0`). -/
theorem aggregate_status_precedence :
    (∀ (strict : Bool) (ts ts2 : Testsuite) (c : Counts),
        Testsuite.Aggregate strict ts = .ok (ts2, c) →
        ts2.status =
          suiteStatusSpecPrecedence c.tests c.skipped c.errored c.failed c.passed) ∧
    (∀ s : TestsuiteSummary,
        (TestsuiteSummary.Aggregate s).1.status =
          suiteStatusSpecPrecedence
            (TestsuiteSummary.Aggregate s).2.tests
            (TestsuiteSummary.Aggregate s).2.skipped
            (TestsuiteSummary.Aggregate s).2.errored
            (TestsuiteSummary.Aggregate s).2.failed
            (TestsuiteSummary.Aggregate s).2.passed) ∧
    (∀ tests skipped errored failed passed : Nat,
        tests = 0 → errored = 0 → failed = 0 →
        suiteStatusSpecPrecedence tests skipped errored failed passed =
          TestsuiteStatus.Empty) ∧
    (∀ n : Nat,
        suiteStatusSpecPrecedence (n + 1) (n + 1) 0 0 0 = TestsuiteStatus.Passed) := by
  refine ⟨?_, ?_, ?_, ?_⟩
  · intro strict ts ts2 c h
    unfold Testsuite.Aggregate at h
    cases h1 : Testsuite.aggregateTestcases strict ts.testcases ⟨0, 0, 0, 0, 0⟩ with
    | error e => rw [h1] at h; exact absurd h (by simp)
    | ok pr =>
      obtain ⟨tcs2, c2⟩ := pr
      rw [h1] at h
      simp only [Except.ok.injEq, Prod.mk.injEq] at h
      obtain ⟨hts, hc⟩ := h
      subst hc
      rw [← hts]
      rfl
  · intro s
    rfl
  · intro tests skipped errored failed passed h0 he hf
    subst h0; subst he; subst hf
    simp [suiteStatusSpecPrecedence]
  · intro n
    simp [suiteStatusSpecPrecedence]

/-- Witness for `aggregate_status_precedence` at concrete inputs. -/
theorem aggregate_status_precedence_witness :
    exAllSkippedAggregated.status = suiteStatusSpecPrecedence 1 1 0 0 0 ∧
    suiteStatusSpecPrecedence 0 5 0 0 0 = TestsuiteStatus.Empty :=
  ⟨aggregate_status_precedence.1 true exAllSkippedSuite exAllSkippedAggregated
      ⟨1, 1, 0, 0, 0⟩ (by rfl),
   aggregate_status_precedence.2.2.1 0 5 0 0 0 (by rfl) (by rfl) (by rfl)⟩

/-!
### Insertion checks (C8)
-/

/-- The inserted entry is always in the map after a dict assignment. -/
theorem dictSetTestcase_mem (tc : Testcase) :
    ∀ tcs : List Testcase, tc ∈ dictSetTestcase tcs tc := by
  intro tcs
  induction tcs with
  | nil => simp [dictSetTestcase]
  | cons x rest ih =>
    unfold dictSetTestcase
    by_cases hx : x.name == tc.name
    · simp [hx]
    · simp [hx, ih]

/-- A dict assignment over an existing key replaces in place: the map keeps
its size. -/
theorem dictSetTestcase_length (tc : Testcase) :
    ∀ tcs : List Testcase, tcs.any (fun x => x.name == tc.name) = true →
      (dictSetTestcase tcs tc).length = tcs.length := by
  intro tcs
  induction tcs with
  | nil => intro h; simp at h
  | cons x rest ih =>
    intro h
    unfold dictSetTestcase
    by_cases hx : x.name == tc.name
    · simp [hx]
    · simp only [List.any_cons, hx, Bool.false_or] at h
      simp [hx, ih h]

/-- The inserted suite is always in the map after a dict assignment
(`parent._testsuites[name] = self`, JUnit.py line 333). -/
theorem dictSetTestsuite_mem (ts : Testsuite) :
    ∀ tss : List Testsuite, ts ∈ dictSetTestsuite tss ts := by
  intro tss
  induction tss with
  | nil => simp [dictSetTestsuite]
  | cons x rest ih =>
    unfold dictSetTestsuite
    by_cases hx : x.name == ts.name
    · simp [hx]
    · simp [hx, ih]

/-- A suite dict assignment over an existing key replaces in place: the map
keeps its size. -/
theorem dictSetTestsuite_length (ts : Testsuite) :
    ∀ tss : List Testsuite, tss.any (fun x => x.name == ts.name) = true →
      (dictSetTestsuite tss ts).length = tss.length := by
  intro tss
  induction tss with
  | nil => intro h; simp at h
  | cons x rest ih =>
    intro h
    unfold dictSetTestsuite
    by_cases hx : x.name == ts.name
    · simp [hx]
    · simp only [List.any_cons, hx, Bool.false_or] at h
      simp [hx, ih h]

/-- C8 (amended): `AddTestcase`/`AddTestsuite` and the constructor
`testcases=`/`testsuites=` iterables enforce the re-parenting check
(`ValueError`, JUnit.py lines 342-343, 364-365, 504-505, 526-527) and the
duplicate-name check (the dialect-distinguishable
`DuplicateTestcaseException`/`DuplicateTestsuiteException`, lines 345-346,
367-368, 507-508, 529-530), raising before the child map is touched; but
passing `parent=` to the child's constructor — `Testcase.__init__` line 164
and `Testsuite.__init__` line 333 — performs neither check: the insertion
always succeeds and silently replaces an existing same-named sibling in
place. -/
theorem insertion_checks_amended :
    (∀ (ts : Testsuite) (tc : Testcase), tc.hasParent = true →
        Testsuite.AddTestcase ts tc =
          .error (.valueError ("Testcase is already part of a testsuite hierarchy."))) ∧
    (∀ (ts : Testsuite) (tc : Testcase), tc.hasParent = false →
        ts.testcases.any (fun x => x.name == tc.name) = true →
        Testsuite.AddTestcase ts tc =
          .error (.duplicateTestcaseException
            ("Testsuite already contains a testcase with same name."))) ∧
    (∀ (s : TestsuiteSummary) (ts : Testsuite), ts.hasParent = true →
        TestsuiteSummary.AddTestsuite s ts =
          .error (.valueError ("Testsuite is already part of a testsuite hierarchy."))) ∧
    (∀ (s : TestsuiteSummary) (ts : Testsuite), ts.hasParent = false →
        s.testsuites.any (fun x => x.name == ts.name) = true →
        TestsuiteSummary.AddTestsuite s ts =
          .error (.duplicateTestsuiteException
            ("Testsuite already contains a testsuite with same name."))) ∧
    (∀ (n h : String) (tc : Testcase) (rest : List Testcase),
        tc.hasParent = true →
        Testsuite.init n h (tc :: rest) =
          .error (.valueError ("Testcase is already part of a testsuite hierarchy."))) ∧
    (∀ (n h : String) (tc1 tc2 : Testcase), tc1.hasParent = false →
        tc2.hasParent = false → tc1.name = tc2.name →
        Testsuite.init n h [tc1, tc2] =
          .error (.duplicateTestcaseException
            ("Testsuite already contains a testcase with same name."))) ∧
    (∀ (n : String) (ts : Testsuite) (rest : List Testsuite),
        ts.hasParent = true →
        TestsuiteSummary.init n (ts :: rest) =
          .error (.valueError ("Testsuite is already part of a testsuite hierarchy."))) ∧
    (∀ (n : String) (ts1 ts2 : Testsuite), ts1.hasParent = false →
        ts2.hasParent = false → ts1.name = ts2.name →
        TestsuiteSummary.init n [ts1, ts2] =
          .error (.duplicateTestsuiteException
            ("Testsuite already contains a testsuite with same name."))) ∧
    (∀ (n cn : String) (ac : Option Nat) (st : TestcaseStatus) (ts : Testsuite),
        ts.testcases.any (fun x => x.name == n) = true →
        (Testcase.initWithParent n cn ac st ts).testcases.length =
            ts.testcases.length ∧
          ({ name := n, classname := cn, assertionCount := ac, status := st,
             hasParent := true } : Testcase) ∈
            (Testcase.initWithParent n cn ac st ts).testcases) ∧
    (∀ (n hn : String) (s : TestsuiteSummary),
        s.testsuites.any (fun x => x.name == n) = true →
        (Testsuite.initWithParent n hn s).testsuites.length =
            s.testsuites.length ∧
          ({ name := n, hostname := hn, testcases := [], tests := 0, skipped := 0,
             errored := 0, failed := 0, passed := 0,
             status := TestsuiteStatus.Unknown, hasParent := true } : Testsuite) ∈
            (Testsuite.initWithParent n hn s).testsuites) := by
  refine ⟨?_, ?_, ?_, ?_, ?_, ?_, ?_, ?_, ?_, ?_⟩
  · intro ts tc h
    simp [Testsuite.AddTestcase, h]
  · intro ts tc h1 h2
    simp [Testsuite.AddTestcase, h1, h2]
  · intro s ts h
    simp [TestsuiteSummary.AddTestsuite, h]
  · intro s ts h1 h2
    simp [TestsuiteSummary.AddTestsuite, h1, h2]
  · intro n h tc rest hp
    simp [Testsuite.init, Testsuite.initAddTestcases, hp]
  · intro n h tc1 tc2 h1 h2 hname
    simp [Testsuite.init, Testsuite.initAddTestcases, h1, h2, hname]
  · intro n ts rest hp
    simp [TestsuiteSummary.init, TestsuiteSummary.initAddTestsuites, hp]
  · intro n ts1 ts2 h1 h2 hname
    simp [TestsuiteSummary.init, TestsuiteSummary.initAddTestsuites, h1, h2, hname]
  · intro n cn ac st ts h
    exact ⟨dictSetTestcase_length _ ts.testcases h, dictSetTestcase_mem _ ts.testcases⟩
  · intro n hn s h
    exact ⟨dictSetTestsuite_length _ s.testsuites h, dictSetTestsuite_mem _ s.testsuites⟩

/-- Witness for `insertion_checks_amended` at concrete inputs, exercising
the `AddTestcase` duplicate error, the `testcases=` iterable re-parenting
error, the `testsuites=` iterable re-parenting and duplicate errors, and
both silent-replacement `parent=` constructor paths. -/
theorem insertion_checks_amended_witness :
    Testsuite.AddTestcase exSuiteWithA
        { name := "a", classname := "c2", assertionCount := none,
          status := TestcaseStatus.Unknown, hasParent := false } =
      .error (.duplicateTestcaseException
        ("Testsuite already contains a testcase with same name.")) ∧
    Testsuite.init ("T2") ("h") [exPassedCase] =
      .error (.valueError ("Testcase is already part of a testsuite hierarchy.")) ∧
    TestsuiteSummary.init ("S2") [exSuiteOnePassed] =
      .error (.valueError ("Testsuite is already part of a testsuite hierarchy.")) ∧
    TestsuiteSummary.init ("S3") [exFreeSuiteU1, exFreeSuiteU2] =
      .error (.duplicateTestsuiteException
        ("Testsuite already contains a testsuite with same name.")) ∧
    (Testcase.initWithParent ("a") ("c2") none TestcaseStatus.Unknown
        exSuiteWithA).testcases.length = exSuiteWithA.testcases.length ∧
    (Testsuite.initWithParent ("T") ("h2")
        exSummaryOnePassed).testsuites.length = exSummaryOnePassed.testsuites.length :=
  ⟨insertion_checks_amended.2.1 exSuiteWithA
      { name := "a", classname := "c2", assertionCount := none,
        status := TestcaseStatus.Unknown, hasParent := false } (by rfl) (by rfl),
   insertion_checks_amended.2.2.2.2.1 ("T2") ("h") exPassedCase [] (by rfl),
   insertion_checks_amended.2.2.2.2.2.2.1 ("S2") exSuiteOnePassed [] (by rfl),
   insertion_checks_amended.2.2.2.2.2.2.2.1 ("S3") exFreeSuiteU1 exFreeSuiteU2
     (by rfl) (by rfl) (by rfl),
   (insertion_checks_amended.2.2.2.2.2.2.2.2.1 ("a") ("c2") none
      TestcaseStatus.Unknown exSuiteWithA (by rfl)).1,
   (insertion_checks_amended.2.2.2.2.2.2.2.2.2 ("T") ("h2")
      exSummaryOnePassed (by rfl)).1⟩

/-!
### Document generation guard (C10)
-/

/-- C10: on every document whose `Read` succeeded with a populated internal
XML tree, `Generate` raises the populated-document `UnittestException` for
either value of its (unused) `overwrite` argument, and
`Write(path, overwrite, regenerate=True)` raises as well (either the
pre-existing-file error or, via its internal `Generate(overwrite=True)`
call, the same populated-document error); a populated internal tree is never
silently replaced. -/
theorem generate_refuses_populated_document :
    ∀ (input : ReadInput) (doc doc2 : JUnitDocument) (tree : XmlElement),
      JUnitDocument.Read input doc = .ok doc2 →
      doc2.xmlDocument = some tree →
      (∀ ow : Bool,
          JUnitDocument.Generate ow doc2 =
            .error (.unittestException ("Internal XML document is populated with data."))) ∧
      (∀ pe ow : Bool, ∃ e : PyError,
          JUnitDocument.Write pe ow true doc2 = .error e) := by
  intro input doc doc2 tree hread hpop
  have hgen : ∀ ow : Bool,
      JUnitDocument.Generate ow doc2 =
        .error (.unittestException ("Internal XML document is populated with data."))  := by
    intro ow
    simp [JUnitDocument.Generate, hpop]
  refine ⟨hgen, ?_⟩
  intro pe ow
  unfold JUnitDocument.Write
  by_cases hc : (!ow && pe) = true
  · rw [if_pos hc]
    exact ⟨_, rfl⟩
  · rw [if_neg hc]
    rw [if_pos rfl, hgen true]
    exact ⟨_, rfl⟩

/-- Witness for `generate_refuses_populated_document` at a concrete
document. -/
theorem generate_refuses_populated_document_witness :
    JUnitDocument.Generate true exDocRead =
      .error (.unittestException ("Internal XML document is populated with data.")) :=
  (generate_refuses_populated_document (ReadInput.valid exXmlTree) exDocUnread
    exDocRead exXmlTree (by rfl) (by rfl)).1 true

theorem addTestcases_meta :
    ∀ (tcs : List UtTestcase) (s s2 : UtTestsuite),
      UtTestsuite.AddTestcases s tcs = .ok s2 →
      s2.name = s.name ∧ s2.kind = s.kind ∧ s2.testsuites = s.testsuites := by
  intro tcs
  induction tcs with
  | nil =>
    intro s s2 h
    simp only [UtTestsuite.AddTestcases, Except.ok.injEq] at h
    subst h
    exact ⟨rfl, rfl, rfl⟩
  | cons tc rest ih =>
    intro s s2 h
    cases s with
    | mk n k kids cas =>
      unfold UtTestsuite.AddTestcases UtTestsuite.AddTestcase at h
      by_cases hd : cas.any (fun x => x.name == tc.name) = true
      · simp [hd] at h
      · simp only [hd, Bool.false_eq_true, if_false, if_neg] at h
        have := ih (.mk n k kids (cas ++ [tc])) s2 h
        simpa using this

theorem insertTestclass_fresh :
    ∀ (path : List PyStr), path ≠ [] →
    ∀ (isRoot : Bool) (nm : PyStr) (knd : TestsuiteKind) (cas : List UtTestcase)
      (tcs : List UtTestcase) (y : UtTestsuite),
      insertTestclass isRoot (.mk nm knd [] cas) path tcs = .ok y →
      y.name = nm ∧
      y.kind = (if isRoot = true ∨ path.length ≠ 1 then knd else TestsuiteKind.Module) ∧
      (∀ i : Nat, 1 ≤ i → i ≤ path.length →
        (findPath y (path.take i)).map UtTestsuite.kind =
          some (if i = path.length then TestsuiteKind.Class
                else if i + 1 = path.length then TestsuiteKind.Module
                else TestsuiteKind.Package)) := by
  intro path
  induction path with
  | nil => intro h; exact absurd rfl h
  | cons e rest ih =>
    intro _ isRoot nm knd cas tcs y h
    cases rest with
    | nil =>
      unfold insertTestclass insertLeaf at h
      cases hadd : UtTestsuite.AddTestcases
          ((mkPackageSuite e).withKind TestsuiteKind.Class) tcs with
      | error err => rw [hadd] at h; exact absurd h (by simp)
      | ok c =>
        rw [hadd] at h
        simp only [Except.ok.injEq] at h
        subst h
        obtain ⟨hn, hk, hs⟩ := addTestcases_meta tcs _ c hadd
        cases c with
        | mk cn ck ckids ccas =>
          simp only [mkPackageSuite, UtTestsuite.withKind, UtTestsuite.name,
            UtTestsuite.kind, UtTestsuite.testsuites] at hn hk hs
          subst hn
          subst hk
          subst hs
          refine ⟨rfl, ?_, ?_⟩
          · cases isRoot <;> simp [UtTestsuite.kind]
          · intro i h1 h2
            simp only [List.length_cons, List.length_nil] at h2 ⊢
            have hi : i = 1 := by omega
            subst hi
            simp [findPath, lookupChild, UtTestsuite.testsuites,
              UtTestsuite.name, UtTestsuite.kind]
    | cons r rest2 =>
      unfold insertTestclass at h
      simp only [lookupChild, UtTestsuite.testsuites] at h
      cases hi : insertTestclass false (mkPackageSuite e) (r :: rest2) tcs with
      | error err => rw [hi] at h; exact absurd h (by simp)
      | ok c2 =>
        rw [hi] at h
        simp only [Except.ok.injEq] at h
        subst h
        obtain ⟨ihn, ihk, ihp⟩ := ih (by simp) false e TestsuiteKind.Package [] tcs c2 hi
        have hlookup : lookupChild e [c2] = some c2 := by
          simp [lookupChild, ihn]
        refine ⟨rfl, ?_, ?_⟩
        · rw [if_pos (by right; simp)]
          rfl
        · intro i h1 h2
          simp only [List.length_cons] at h2 ⊢
          obtain ⟨j, rfl⟩ : ∃ j, i = j + 1 := ⟨i - 1, by omega⟩
          simp only [List.take_succ_cons]
          unfold findPath
          simp only [UtTestsuite.testsuites, replaceChild]
          rw [hlookup]
          simp only []
          cases j with
          | zero =>
            simp only [List.take_zero, findPath, Option.map_some, Option.map_some']
            rw [ihk]
            simp only [List.length_cons, Bool.false_eq_true, false_or]
            split_ifs <;> first | rfl | omega
          | succ j2 =>
            have hstep := ihp (j2 + 1) (by omega) (by simp only [List.length_cons]; omega)
            rw [hstep]
            congr 1
            simp only [List.length_cons]
            split_ifs <;> first | rfl | omega

/-- C9 (amended): as `ToTestsuite` processes one testclass whose dotted name
was split into `path` (inserted here into a bare root of kind `Logical`, the
state in which the classpath's suites are created): the suite at the full
path is tagged `Class`; with a path of at least two elements its immediate
parent is retagged `Module` — precisely because that parent is NOT the root
— while the root itself always keeps its `Logical` kind; created suites
strictly above the `Module` one stay `Package`. -/
theorem totestsuite_kind_tagging :
    ∀ (rootName : PyStr) (path : List PyStr) (tcs : List UtTestcase) (y : UtTestsuite),
      path ≠ [] →
      insertTestclass true (.mk rootName TestsuiteKind.Logical [] []) path tcs = .ok y →
      y.kind = TestsuiteKind.Logical ∧
      (findPath y path).map UtTestsuite.kind = some TestsuiteKind.Class ∧
      (2 ≤ path.length →
        (findPath y (path.take (path.length - 1))).map UtTestsuite.kind =
          some TestsuiteKind.Module) ∧
      (∀ i : Nat, 1 ≤ i → i + 1 < path.length →
        (findPath y (path.take i)).map UtTestsuite.kind = some TestsuiteKind.Package) := by
  intro rootName path tcs y hne h
  have hlen : 1 ≤ path.length := List.length_pos.mpr hne
  obtain ⟨hn, hk, hp⟩ :=
    insertTestclass_fresh path hne true rootName TestsuiteKind.Logical [] tcs y h
  refine ⟨?_, ?_, ?_, ?_⟩
  · rw [hk, if_pos (Or.inl rfl)]
  · have hfull := hp path.length hlen (le_refl _)
    rw [List.take_length] at hfull
    rw [hfull, if_pos rfl]
  · intro h2
    have hone := hp (path.length - 1) (by omega) (by omega)
    rw [hone, if_neg (by omega), if_pos (by omega)]
  · intro i h1 h2
    have hmid := hp i h1 (by omega)
    rw [hmid, if_neg (by omega), if_neg (by omega)]

/-- Witness for `totestsuite_kind_tagging` at the concrete path
`["a", "b", "c"]`. -/
theorem totestsuite_kind_tagging_witness :
    exKindResult.kind = TestsuiteKind.Logical ∧
    (findPath exKindResult exKindPath).map UtTestsuite.kind =
      some TestsuiteKind.Class ∧
    (findPath exKindResult (exKindPath.take 2)).map UtTestsuite.kind =
      some TestsuiteKind.Module ∧
    (findPath exKindResult (exKindPath.take 1)).map UtTestsuite.kind =
      some TestsuiteKind.Package := by
  obtain ⟨h1, h2, h3, h4⟩ := totestsuite_kind_tagging (pys ("r")) exKindPath
    [⟨pys ("t"), TestcaseStatus.Passed⟩] exKindResult (by decide) (by rfl)
  exact ⟨h1, h2, h3 (by decide), h4 1 (by decide) (by decide)⟩

/-!
### The GoogleTest classname round trip (C6)
-/

/-- Moving a middle block to the end is a permutation. -/
theorem perm_shift {α : Type} (A X B : List α) :
    (A ++ (X ++ B)).Perm ((A ++ B) ++ X) := by
  have h1 : (A ++ (X ++ B)).Perm (A ++ (B ++ X)) :=
    List.Perm.append_left A List.perm_append_comm
  have h2 : A ++ (B ++ X) = (A ++ B) ++ X := (List.append_assoc A B X).symm
  rw [h2] at h1
  exact h1

/-- Converting a canonical case to the JUnit model and back is the
identity. -/
theorem toTestcase_fromTestcase (tc : UtTestcase) :
    JuTestcase.ToTestcase (JuTestcase.FromTestcase tc) = tc := rfl

/-- Adding one case to the testclass list appends exactly its pair, up to
permutation of `juClassPairs`. -/
theorem addToClasses_pairs :
    ∀ (cls : List JuTestclass) (cn : PyStr) (tc : JuTestcase) (out : List JuTestclass),
      addToClasses cls cn tc = .ok out →
      (juClassPairs out).Perm (juClassPairs cls ++ [(cn, JuTestcase.ToTestcase tc)]) := by
  intro cls
  induction cls with
  | nil =>
    intro cn tc out h
    simp only [addToClasses, Except.ok.injEq] at h
    subst h
    simp [juClassPairs]
  | cons cls0 rest ih =>
    intro cn tc out h
    unfold addToClasses at h
    by_cases hname : (cls0.name == cn) = true
    · rw [if_pos hname] at h
      unfold JuTestclass.AddTestcase at h
      by_cases hdup : cls0.testcases.any (fun x => x.name == tc.name) = true
      · rw [if_pos hdup] at h
        exact absurd h (by simp)
      · rw [if_neg hdup] at h
        simp only [Except.ok.injEq] at h
        subst h
        have hn : cls0.name = cn := by simpa using hname
        subst hn
        simp only [juClassPairs, List.flatMap_cons, List.map_append, List.map_cons,
          List.map_nil]
        rw [List.append_assoc]
        exact perm_shift _ _ _
    · rw [if_neg hname] at h
      cases hrec : addToClasses rest cn tc with
      | error e => rw [hrec] at h; exact absurd h (by simp)
      | ok rest2 =>
        rw [hrec] at h
        simp only [Except.ok.injEq] at h
        subst h
        have hperm := ih cn tc rest2 hrec
        simp only [juClassPairs, List.flatMap_cons] at hperm ⊢
        have h1 := List.Perm.append_left
          (cls0.testcases.map (fun j => (cls0.name, JuTestcase.ToTestcase j))) hperm
        rw [← List.append_assoc] at h1
        exact h1

/-- Grouping a pair list into testclasses preserves the pairs up to
permutation. -/
theorem groupCases_pairs :
    ∀ (ps : List (PyStr × UtTestcase)) (acc out : List JuTestclass),
      groupCases ps acc = .ok out →
      (juClassPairs out).Perm (juClassPairs acc ++ ps) := by
  intro ps
  induction ps with
  | nil =>
    intro acc out h
    simp only [groupCases, Except.ok.injEq] at h
    subst h
    simp
  | cons p rest ih =>
    intro acc out h
    obtain ⟨cn, tc⟩ := p
    unfold groupCases at h
    cases h1 : addToClasses acc cn (JuTestcase.FromTestcase tc) with
    | error e => rw [h1] at h; exact absurd h (by simp)
    | ok acc2 =>
      rw [h1] at h
      simp only [] at h
      have hstep := addToClasses_pairs acc cn (JuTestcase.FromTestcase tc) acc2 h1
      rw [toTestcase_fromTestcase] at hstep
      have hrest := ih acc2 out h
      have h2 := List.Perm.trans hrest (List.Perm.append_right rest hstep)
      rw [List.append_assoc] at h2
      exact h2

/-- The flattening direction preserves the classname/case pairs. -/
theorem fromTestsuite_pairs (x : UtTestsuite) (ju : JuTestsuite)
    (h : JuTestsuite.FromTestsuite x = .ok ju) :
    (juClassPairs ju.testclasses).Perm (UtTestsuite.casePairs [] x) := by
  unfold JuTestsuite.FromTestsuite at h
  cases h1 : groupCases (UtTestsuite.casePairs [] x) [] with
  | error e => rw [h1] at h; exact absurd h (by simp)
  | ok classes =>
    rw [h1] at h
    simp only [Except.ok.injEq] at h
    subst h
    simpa [juClassPairs] using groupCases_pairs (UtTestsuite.casePairs [] x) [] classes h1

/-- `casePairs` reads a node's kind only through the `> Logical` test. -/
theorem casePairs_kind_congr (above : List PyStr) (n : PyStr) (k1 k2 : TestsuiteKind)
    (kids : List UtTestsuite) (cas : List UtTestcase)
    (h : TestsuiteKind.gtLogical k1 = TestsuiteKind.gtLogical k2) :
    UtTestsuite.casePairs above (.mk n k1 kids cas) =
      UtTestsuite.casePairs above (.mk n k2 kids cas) := by
  simp only [UtTestsuite.casePairs, h]

/-- A successful `AddTestcases` appends exactly the given cases. -/
theorem addTestcases_ok :
    ∀ (tcs : List UtTestcase) (n : PyStr) (k : TestsuiteKind)
      (kids : List UtTestsuite) (cas : List UtTestcase) (s2 : UtTestsuite),
      UtTestsuite.AddTestcases (.mk n k kids cas) tcs = .ok s2 →
      s2 = .mk n k kids (cas ++ tcs) := by
  intro tcs
  induction tcs with
  | nil =>
    intro n k kids cas s2 h
    simp only [UtTestsuite.AddTestcases, Except.ok.injEq] at h
    subst h
    simp
  | cons tc rest ih =>
    intro n k kids cas s2 h
    unfold UtTestsuite.AddTestcases UtTestsuite.AddTestcase at h
    by_cases hd : cas.any (fun x => x.name == tc.name) = true
    · simp [hd] at h
    · simp only [hd, Bool.false_eq_true, if_false, if_neg] at h
      have := ih n k kids (cas ++ [tc]) s2 h
      rw [this, List.append_assoc]
      rfl

/-- `casePairsList` distributes over list append. -/
theorem casePairsList_append (above : List PyStr) :
    ∀ l1 l2 : List UtTestsuite,
      UtTestsuite.casePairsList above (l1 ++ l2) =
        UtTestsuite.casePairsList above l1 ++ UtTestsuite.casePairsList above l2 := by
  intro l1 l2
  induction l1 with
  | nil => simp [UtTestsuite.casePairsList]
  | cons c rest ih => simp [UtTestsuite.casePairsList, ih]

/-- A found child keeps the looked-up name. -/
theorem lookupChild_name :
    ∀ (kids : List UtTestsuite) (e : PyStr) (c : UtTestsuite),
      lookupChild e kids = some c → c.name = e := by
  intro kids
  induction kids with
  | nil => intro e c h; simp [lookupChild] at h
  | cons c0 rest ih =>
    intro e c h
    unfold lookupChild at h
    by_cases hn : (c0.name == e) = true
    · rw [if_pos hn] at h
      simp only [Option.some.injEq] at h
      subst h
      simpa using hn
    · rw [if_neg hn] at h
      exact ih e c h

/-- A found child of a well-kinded child list is itself well kinded. -/
theorem lookupChild_subOK :
    ∀ (kids : List UtTestsuite) (e : PyStr) (c : UtTestsuite),
      lookupChild e kids = some c → UtTestsuite.subOKList kids = true →
      TestsuiteKind.gtLogical c.kind = true ∧ c.subOK = true := by
  intro kids
  induction kids with
  | nil => intro e c h; simp [lookupChild] at h
  | cons c0 rest ih =>
    intro e c h hok
    simp only [UtTestsuite.subOKList, Bool.and_eq_true] at hok
    unfold lookupChild at h
    by_cases hn : (c0.name == e) = true
    · rw [if_pos hn] at h
      simp only [Option.some.injEq] at h
      subst h
      exact ⟨hok.1.1, hok.1.2⟩
    · rw [if_neg hn] at h
      exact ih e c h hok.2

/-- Writing back a well-kinded child keeps the child list well kinded. -/
theorem replaceChild_subOK :
    ∀ (kids : List UtTestsuite) (e : PyStr) (c2 : UtTestsuite),
      UtTestsuite.subOKList kids = true →
      TestsuiteKind.gtLogical c2.kind = true → c2.subOK = true →
      UtTestsuite.subOKList (replaceChild e c2 kids) = true := by
  intro kids
  induction kids with
  | nil =>
    intro e c2 hok h1 h2
    simp [replaceChild, UtTestsuite.subOKList, h1, h2]
  | cons c0 rest ih =>
    intro e c2 hok h1 h2
    simp only [UtTestsuite.subOKList, Bool.and_eq_true] at hok
    unfold replaceChild
    by_cases hn : (c0.name == e) = true
    · simp only [hn, if_true, UtTestsuite.subOKList, Bool.and_eq_true]
      exact ⟨⟨h1, h2⟩, hok.2⟩
    · simp only [hn, Bool.false_eq_true, if_false, UtTestsuite.subOKList,
        Bool.and_eq_true]
      exact ⟨hok.1, ih e c2 hok.2 h1 h2⟩

/-- Writing back at a missing key appends. -/
theorem replaceChild_notfound :
    ∀ (kids : List UtTestsuite) (e : PyStr) (c2 : UtTestsuite),
      lookupChild e kids = none → replaceChild e c2 kids = kids ++ [c2] := by
  intro kids
  induction kids with
  | nil => intro e c2 h; simp [replaceChild]
  | cons c0 rest ih =>
    intro e c2 h
    unfold lookupChild at h
    unfold replaceChild
    by_cases hn : (c0.name == e) = true
    · rw [if_pos hn] at h; simp at h
    · rw [if_neg hn] at h
      simp only [hn, Bool.false_eq_true, if_false, List.cons_append,
        List.cons.injEq, true_and]
      exact ih e c2 h

/-- Writing back over a found child replaces its pair contribution. -/
theorem replaceChild_pairs_found :
    ∀ (kids : List UtTestsuite) (e : PyStr) (c c2 : UtTestsuite)
      (X : List (PyStr × UtTestcase)) (above : List PyStr),
      lookupChild e kids = some c →
      (UtTestsuite.casePairs above c2).Perm (UtTestsuite.casePairs above c ++ X) →
      (UtTestsuite.casePairsList above (replaceChild e c2 kids)).Perm
        (UtTestsuite.casePairsList above kids ++ X) := by
  intro kids
  induction kids with
  | nil => intro e c c2 X above h; simp [lookupChild] at h
  | cons c0 rest ih =>
    intro e c c2 X above h hperm
    unfold lookupChild at h
    unfold replaceChild
    by_cases hn : (c0.name == e) = true
    · rw [if_pos hn] at h
      simp only [Option.some.injEq] at h
      subst h
      simp only [hn, if_true, UtTestsuite.casePairsList]
      have h1 := List.Perm.append_right (UtTestsuite.casePairsList above rest) hperm
      rw [List.append_assoc] at h1
      have h2 := List.Perm.trans h1
        (perm_shift (UtTestsuite.casePairs above c0) X
          (UtTestsuite.casePairsList above rest))
      rw [List.append_assoc]
      have h3 : (UtTestsuite.casePairs above c0 ++ UtTestsuite.casePairsList above rest) ++ X =
          UtTestsuite.casePairs above c0 ++ (UtTestsuite.casePairsList above rest ++ X) := by
        rw [List.append_assoc]
      rw [← h3]
      exact h2
    · rw [if_neg hn] at h
      simp only [hn, Bool.false_eq_true, if_false, UtTestsuite.casePairsList]
      have h1 := List.Perm.append_left (UtTestsuite.casePairs above c0)
        (ih e c c2 X above h hperm)
      rw [← List.append_assoc] at h1
      exact h1

/-- `insertLeaf` appends the given cases under the leaf suite (created
`Package` then retagged `Class`, or the existing child retagged `Class`),
adding exactly the pairs with classname `above ++ [leaf]` joined with dots,
and keeps the child list well kinded. -/
theorem insertLeaf_pairs :
    ∀ (kids : List UtTestsuite) (leaf : PyStr) (tcs : List UtTestcase)
      (kids2 : List UtTestsuite) (above : List PyStr),
      insertLeaf leaf tcs kids = .ok kids2 →
      UtTestsuite.subOKList kids = true →
      (UtTestsuite.casePairsList above kids2).Perm
        (UtTestsuite.casePairsList above kids ++
          tcs.map (fun tc => (List.intercalate [('.')] (above ++ [leaf]), tc))) ∧
      UtTestsuite.subOKList kids2 = true := by
  intro kids
  induction kids with
  | nil =>
    intro leaf tcs kids2 above h hok
    unfold insertLeaf at h
    cases hadd : UtTestsuite.AddTestcases
        ((mkPackageSuite leaf).withKind TestsuiteKind.Class) tcs with
    | error e => rw [hadd] at h; exact absurd h (by simp)
    | ok c =>
      rw [hadd] at h
      simp only [Except.ok.injEq] at h
      subst h
      have hc := addTestcases_ok tcs leaf TestsuiteKind.Class [] [] c hadd
      subst hc
      constructor
      · simp only [UtTestsuite.casePairsList, UtTestsuite.casePairs, List.nil_append,
          List.append_nil]
        exact List.Perm.refl _
      · simp [UtTestsuite.subOKList, UtTestsuite.subOK, UtTestsuite.kind,
          TestsuiteKind.gtLogical, TestsuiteKind.toNat]
  | cons c0 rest ih =>
    intro leaf tcs kids2 above h hok
    simp only [UtTestsuite.subOKList, Bool.and_eq_true] at hok
    unfold insertLeaf at h
    by_cases hn : (c0.name == leaf) = true
    · rw [if_pos hn] at h
      cases c0 with
      | mk n k ck cc =>
        cases hadd : UtTestsuite.AddTestcases
            ((UtTestsuite.mk n k ck cc).withKind TestsuiteKind.Class) tcs with
        | error e => rw [hadd] at h; exact absurd h (by simp)
        | ok c2 =>
          rw [hadd] at h
          simp only [Except.ok.injEq] at h
          subst h
          have hc2 : c2 = .mk n TestsuiteKind.Class ck (cc ++ tcs) :=
            addTestcases_ok tcs n TestsuiteKind.Class ck cc c2 hadd
          subst hc2
          have hname : n = leaf := by simpa [UtTestsuite.name] using hn
          subst hname
          have hkgt : TestsuiteKind.gtLogical k = true := by
            simpa [UtTestsuite.kind] using hok.1.1
          constructor
          · simp only [UtTestsuite.casePairsList, UtTestsuite.casePairs, hkgt,
              if_true, List.map_append]
            have hcls : TestsuiteKind.gtLogical TestsuiteKind.Class = true := by decide
            simp only [hcls, if_true]
            have hp := perm_shift
              (cc.map (fun tc => (List.intercalate [('.')] (above ++ [n]), tc)))
              (tcs.map (fun tc => (List.intercalate [('.')] (above ++ [n]), tc)))
              (UtTestsuite.casePairsList (above ++ [n]) ck ++
                UtTestsuite.casePairsList above rest)
            simpa only [List.append_assoc] using hp
          · have hsub : UtTestsuite.subOK (.mk n TestsuiteKind.Class ck (cc ++ tcs)) =
                UtTestsuite.subOKList ck := by
              simp [UtTestsuite.subOK]
            have hsub0 : UtTestsuite.subOKList ck = true := by
              have := hok.1.2
              simpa [UtTestsuite.subOK] using this
            simp [UtTestsuite.subOKList, hsub, hsub0, hok.2,
              TestsuiteKind.gtLogical, TestsuiteKind.toNat, UtTestsuite.kind]
    · rw [if_neg hn] at h
      cases hrec : insertLeaf leaf tcs rest with
      | error e => rw [hrec] at h; exact absurd h (by simp)
      | ok rest2 =>
        rw [hrec] at h
        simp only [Except.ok.injEq] at h
        subst h
        obtain ⟨hperm, hsub⟩ := ih leaf tcs rest2 above hrec hok.2
        constructor
        · simp only [UtTestsuite.casePairsList]
          have h1 := List.Perm.append_left (UtTestsuite.casePairs above c0) hperm
          rw [← List.append_assoc] at h1
          exact h1
        · simp only [UtTestsuite.subOKList, Bool.and_eq_true]
          exact ⟨hok.1, hsub⟩

/-- One testclass insertion adds exactly the pairs of its cases, each under
the classname obtained by joining the walk prefix with the remaining path,
and preserves the structural kind facts. -/
theorem insertTestclass_pairs :
    ∀ (path : List PyStr), path ≠ [] →
    ∀ (isRoot : Bool) (t : UtTestsuite) (tcs : List UtTestcase) (t2 : UtTestsuite)
      (above : List PyStr),
      (isRoot = false → TestsuiteKind.gtLogical t.kind = true) →
      t.subOK = true →
      insertTestclass isRoot t path tcs = .ok t2 →
      (UtTestsuite.casePairs above t2).Perm
        (UtTestsuite.casePairs above t ++
          tcs.map (fun tc => (List.intercalate [('.')]
            ((if TestsuiteKind.gtLogical t.kind then above ++ [t.name] else []) ++ path),
            tc))) ∧
      t2.subOK = true ∧ t2.name = t.name ∧
      TestsuiteKind.gtLogical t2.kind = TestsuiteKind.gtLogical t.kind ∧
      (isRoot = true → t2.kind = t.kind) := by
  intro path
  induction path with
  | nil => intro h; exact absurd rfl h
  | cons e rest ih =>
    intro _ isRoot t tcs t2 above hkind hsub h
    cases rest with
    | nil =>
      cases t with
      | mk n k kids cas =>
        unfold insertTestclass at h
        simp only [] at h
        cases hleaf : insertLeaf e tcs kids with
        | error err => rw [hleaf] at h; exact absurd h (by simp)
        | ok kids2 =>
          rw [hleaf] at h
          simp only [Except.ok.injEq] at h
          subst h
          have hsubl : UtTestsuite.subOKList kids = true := by
            simpa [UtTestsuite.subOK] using hsub
          obtain ⟨hperm, hsub2⟩ := insertLeaf_pairs kids e tcs kids2
            (if TestsuiteKind.gtLogical k then above ++ [n] else []) hleaf hsubl
          have hgt2 : TestsuiteKind.gtLogical (if isRoot = true then k else TestsuiteKind.Module) =
              TestsuiteKind.gtLogical k := by
            cases isRoot with
            | true => simp
            | false =>
              have hthis := hkind rfl
              simp only [UtTestsuite.kind] at hthis
              simp only [Bool.false_eq_true, if_false, hthis]
              rfl
          refine ⟨?_, ?_, rfl, ?_, ?_⟩
          · simp only [UtTestsuite.casePairs, UtTestsuite.kind, UtTestsuite.name, hgt2]
            have h1 := List.Perm.append_left
              (cas.map (fun tc => (List.intercalate [('.')] (above ++ [n]), tc))) hperm
            rw [← List.append_assoc] at h1
            exact h1
          · simpa [UtTestsuite.subOK] using hsub2
          · simpa [UtTestsuite.kind] using hgt2
          · intro hr
            simp [UtTestsuite.kind, hr]
    | cons r rest2 =>
      cases t with
      | mk n k kids cas =>
        unfold insertTestclass at h
        simp only [] at h
        have hsubl : UtTestsuite.subOKList kids = true := by
          simpa [UtTestsuite.subOK] using hsub
        cases hlook : lookupChild e kids with
        | some c =>
          rw [hlook] at h
          simp only [] at h
          cases hrec : insertTestclass false c (r :: rest2) tcs with
          | error err => rw [hrec] at h; exact absurd h (by simp)
          | ok c2 =>
            rw [hrec] at h
            simp only [Except.ok.injEq] at h
            subst h
            obtain ⟨hcgt, hcsub⟩ := lookupChild_subOK kids e c hlook hsubl
            have hcname : c.name = e := lookupChild_name kids e c hlook
            obtain ⟨hperm, hc2sub, hc2name, hc2gt, _⟩ :=
              ih (by simp) false c tcs c2
                (if TestsuiteKind.gtLogical k then above ++ [n] else [])
                (fun _ => hcgt) hcsub hrec
            rw [hcgt, if_pos rfl, hcname] at hperm
            have hX : ((if TestsuiteKind.gtLogical k then above ++ [n] else []) ++ [e]) ++
                (r :: rest2) =
                (if TestsuiteKind.gtLogical k then above ++ [n] else []) ++
                  (e :: r :: rest2) := by
              rw [List.append_assoc]
              rfl
            rw [hX] at hperm
            have hrepl := replaceChild_pairs_found kids e c c2
              (tcs.map (fun tc => (List.intercalate [('.')]
                ((if TestsuiteKind.gtLogical k then above ++ [n] else []) ++
                  (e :: r :: rest2)), tc)))
              (if TestsuiteKind.gtLogical k then above ++ [n] else []) hlook hperm
            refine ⟨?_, ?_, rfl, rfl, fun _ => rfl⟩
            · simp only [UtTestsuite.casePairs, UtTestsuite.kind, UtTestsuite.name]
              have h1 := List.Perm.append_left
                (cas.map (fun tc => (List.intercalate [('.')] (above ++ [n]), tc))) hrepl
              rw [← List.append_assoc] at h1
              exact h1
            · have := replaceChild_subOK kids e c2 hsubl (by rw [hc2gt]; exact hcgt) hc2sub
              simpa [UtTestsuite.subOK] using this
        | none =>
          rw [hlook] at h
          simp only [] at h
          cases hrec : insertTestclass false (mkPackageSuite e) (r :: rest2) tcs with
          | error err => rw [hrec] at h; exact absurd h (by simp)
          | ok c2 =>
            rw [hrec] at h
            simp only [Except.ok.injEq] at h
            subst h
            have hfresh_gt : TestsuiteKind.gtLogical (mkPackageSuite e).kind = true := rfl
            have hfresh_sub : (mkPackageSuite e).subOK = true := rfl
            obtain ⟨hperm, hc2sub, hc2name, hc2gt, _⟩ :=
              ih (by simp) false (mkPackageSuite e) tcs c2
                (if TestsuiteKind.gtLogical k then above ++ [n] else [])
                (fun _ => hfresh_gt) hfresh_sub hrec
            have hfreshpairs : UtTestsuite.casePairs
                (if TestsuiteKind.gtLogical k then above ++ [n] else [])
                (mkPackageSuite e) = [] := by
              simp [mkPackageSuite, UtTestsuite.casePairs, UtTestsuite.casePairsList]
            rw [hfreshpairs, hfresh_gt, if_pos rfl, List.nil_append] at hperm
            have hname : (mkPackageSuite e).name = e := rfl
            rw [hname] at hperm
            have hX : ((if TestsuiteKind.gtLogical k then above ++ [n] else []) ++ [e]) ++
                (r :: rest2) =
                (if TestsuiteKind.gtLogical k then above ++ [n] else []) ++
                  (e :: r :: rest2) := by
              rw [List.append_assoc]
              rfl
            rw [hX] at hperm
            have hreplEq := replaceChild_notfound kids e c2 hlook
            refine ⟨?_, ?_, rfl, rfl, fun _ => rfl⟩
            · simp only [UtTestsuite.casePairs, UtTestsuite.kind, UtTestsuite.name,
                hreplEq]
              rw [casePairsList_append]
              have hc2pairs : (UtTestsuite.casePairsList
                  (if TestsuiteKind.gtLogical k then above ++ [n] else []) [c2]).Perm
                  (tcs.map (fun tc => (List.intercalate [('.')]
                    ((if TestsuiteKind.gtLogical k then above ++ [n] else []) ++
                      (e :: r :: rest2)), tc))) := by
                simpa [UtTestsuite.casePairsList] using hperm
              have h1 := List.Perm.append_left
                (UtTestsuite.casePairsList
                  (if TestsuiteKind.gtLogical k then above ++ [n] else []) kids) hc2pairs
              have h2 := List.Perm.append_left
                (cas.map (fun tc => (List.intercalate [('.')] (above ++ [n]), tc)))
                h1
              rw [List.append_assoc]
              exact h2
            · have := replaceChild_subOK kids e c2 hsubl (by rw [hc2gt]; exact hfresh_gt)
                hc2sub
              simpa [UtTestsuite.subOK] using this

/-- The `ToTestsuite` loop over the testclasses accumulates exactly the
testclasses' pairs: inserting testclass `cls` into the root (kind `Logical`,
so the walk prefix is empty) adds the pairs
`(intercalate "." (split "." cls.name), case) = (cls.name, case)`. -/
theorem toTestsuiteLoop_pairs :
    ∀ (classes : List JuTestclass) (t t2 : UtTestsuite),
      t.subOK = true →
      TestsuiteKind.gtLogical t.kind = false →
      toTestsuiteLoop t classes = .ok t2 →
      (UtTestsuite.casePairs [] t2).Perm
        (UtTestsuite.casePairs [] t ++ juClassPairs classes) ∧
      t2.subOK = true ∧ TestsuiteKind.gtLogical t2.kind = false := by
  intro classes
  induction classes with
  | nil =>
    intro t t2 hsub hgt h
    simp only [toTestsuiteLoop, Except.ok.injEq] at h
    subst h
    exact ⟨by simp [juClassPairs], hsub, hgt⟩
  | cons cls rest ih =>
    intro t t2 hsub hgt h
    unfold toTestsuiteLoop at h
    cases hins : insertTestclass true t (cls.name.splitOn ('.'))
        (cls.testcases.map JuTestcase.ToTestcase) with
    | error e => rw [hins] at h; exact absurd h (by simp)
    | ok tMid =>
      rw [hins] at h
      simp only [] at h
      have hpath : cls.name.splitOn ('.') ≠ [] := by
        simp only [List.splitOn]
        exact List.splitOnP_ne_nil (fun a => a == ('.')) cls.name
      obtain ⟨hperm, hmidsub, _, hmidgt, hmidkind⟩ :=
        insertTestclass_pairs (cls.name.splitOn ('.')) hpath true t
          (cls.testcases.map JuTestcase.ToTestcase) tMid [] (by simp) hsub hins
      rw [hgt, if_neg (by simp), List.nil_append] at hperm
      have hjoin : List.intercalate [('.')] (cls.name.splitOn ('.')) = cls.name :=
        @List.intercalate_splitOn Char cls.name ('.') _
      rw [hjoin] at hperm
      have hXeq : (cls.testcases.map JuTestcase.ToTestcase).map
          (fun tc => (cls.name, tc)) =
          cls.testcases.map (fun j => (cls.name, JuTestcase.ToTestcase j)) := by
        rw [List.map_map]
        rfl
      rw [hXeq] at hperm
      have hmidgt2 : TestsuiteKind.gtLogical tMid.kind = false := by
        rw [hmidgt]
        exact hgt
      obtain ⟨hperm2, hsub2, hgt2⟩ := ih tMid t2 hmidsub hmidgt2 h
      refine ⟨?_, hsub2, hgt2⟩
      have hstep := List.Perm.trans hperm2
        (List.Perm.append_right (juClassPairs rest) hperm)
      rw [List.append_assoc] at hstep
      simpa [juClassPairs, List.flatMap_cons] using hstep

/-- C6: for every canonical tree `x` on which the GoogleTest flattening
succeeds and whose result unflattens successfully, the reconstructed tree
`y` carries exactly the same multiset of (dotted classname, test case)
pairs, computed by the same ancestor-climbing rule — so every case comes
back under exactly its original dotted classname, none lost, none
duplicated. -/
theorem googletest_classname_roundtrip :
    ∀ (x : UtTestsuite) (ju : JuTestsuite) (y : UtTestsuite),
      JuTestsuite.FromTestsuite x = .ok ju →
      JuTestsuite.ToTestsuite ju = .ok y →
      (UtTestsuite.casePairs [] y).Perm (UtTestsuite.casePairs [] x) := by
  intro x ju y hfrom hto
  have h1 := fromTestsuite_pairs x ju hfrom
  unfold JuTestsuite.ToTestsuite at hto
  obtain ⟨h2, _, _⟩ := toTestsuiteLoop_pairs ju.testclasses
    (.mk ju.name TestsuiteKind.Logical [] []) y rfl rfl hto
  have hroot : UtTestsuite.casePairs []
      (UtTestsuite.mk ju.name TestsuiteKind.Logical [] []) = [] := by
    simp [UtTestsuite.casePairs, UtTestsuite.casePairsList]
  rw [hroot, List.nil_append] at h2
  exact List.Perm.trans h2 h1

/-- Witness for `googletest_classname_roundtrip` on the two-class example:
`ToTestsuite (FromTestsuite x)` brings every case back under its original
dotted classname. -/
theorem googletest_classname_roundtrip_witness :
    (UtTestsuite.casePairs [] exRoundtripY).Perm
      (UtTestsuite.casePairs [] exRoundtripX) :=
  googletest_classname_roundtrip exRoundtripX exRoundtripJu exRoundtripY
    (by rfl) (by rfl)

/-- The witness example indeed uses the classnames named by the claim. -/
example :
    (UtTestsuite.casePairs [] exRoundtripX).map (fun p => p.1) =
      [pys ("pkg.Mod.ClassA"), pys ("pkg.Mod.ClassA"), pys ("pkg.Mod.ClassB")] ∧
    UtTestsuite.casePairs [] exRoundtripY = UtTestsuite.casePairs [] exRoundtripX := by
  constructor
  · rfl
  · rfl
